import Mathlib

/-!
# Verification of the LinkedIn scraping / face-index pipeline

A shallow embedding of the core of the `linkedIn_scraping_image` repository:

* `core/linkedin_scraper.py` — the Voyager-response record parser
  (`_parse_voyager_response` and its helpers `_er_text`, `_er_photo_er`,
  `_er_photo_included`, `_extract_vector_image`), the crawl round loop of
  `LinkedInScraper._run`, and the credential validation of
  `LinkedInScraper.scrape`;
* `core/face_index.py` — `FaceIndex.search`, `SearchResult`, `FaceIndex._load`;
* `core/alumni_osint_pipeline.py` — the credential check of
  `AlumniOSINTPipeline.run`;
* `scrape_all_alumni.py` and `scrape_post2022.py` — the segmented crawl
  controllers.

Python dynamic values flowing through the parser are embedded as a JSON value
type `JVal`; Python exceptions are embedded as `Except PyExn`; Python
truthiness, attribute errors on `.get`, `in`-membership and `max(key=...)` are
modelled explicitly so that the error behaviour of the parser is faithful.
-/

/-! ## Python-level primitives -/

/-- The Python exception classes that the embedded code can raise or catch. -/
inductive PyExn where
  | keyError
  | typeError
  | attrError
  | valueError
  deriving DecidableEq, Repr

/-- A JSON value as produced by `json.loads`.  Numbers are embedded as
integers (the payload fields the code inspects — widths — are integral). -/
inductive JVal where
  | str  : String → JVal
  | num  : Int → JVal
  | bool : Bool → JVal
  | null : JVal
  | arr  : List JVal → JVal
  | obj  : List (String × JVal) → JVal

/-- Python truthiness of a JSON value: `""`, `0`, `False`, `None`, `[]` and
`{}` are falsy, everything else truthy. -/
def JVal.truthy : JVal → Bool
  | .str s  => s ≠ ""
  | .num n  => n ≠ 0
  | .bool b => b
  | .null   => false
  | .arr xs => !xs.isEmpty
  | .obj fs => !fs.isEmpty

/-- Python `a or b` on JSON values: `a` if truthy, else `b`. -/
def pyOr (a b : JVal) : JVal := if a.truthy then a else b

/-- Python `==` restricted to hashable JSON values: strings, numbers, booleans
(`True == 1`, `False == 0`) and `None`.  Lists and dicts are unhashable and
never occur as cache keys, so they compare unequal here. -/
def jvalBeq : JVal → JVal → Bool
  | .str a,  .str b  => a = b
  | .num a,  .num b  => a = b
  | .bool a, .bool b => a = b
  | .bool a, .num b  => (if a then (1 : Int) else 0) = b
  | .num a,  .bool b => a = (if b then (1 : Int) else 0)
  | .null,   .null   => true
  | _,       _       => false

/-- First value bound to key `k` in a field list (Python dict lookup). -/
def jLookup (fs : List (String × JVal)) (k : String) : Option JVal :=
  (fs.find? (fun kv => kv.1 = k)).map (·.2)

/-- Python `d.get(k, default)` on an object's field list. -/
def jGetD (fs : List (String × JVal)) (k : String) (d : JVal) : JVal :=
  (jLookup fs k).getD d

/-- Python `d.get(k)` on an object's field list (`None` when absent). -/
def jGet (fs : List (String × JVal)) (k : String) : JVal :=
  jGetD fs k .null

/-- Python `v.get(k, d)` on an arbitrary value: raises `AttributeError`
unless `v` is a dict. -/
def jGetM (v : JVal) (k : String) (d : JVal) : Except PyExn JVal :=
  match v with
  | .obj fs => .ok (jGetD fs k d)
  | _       => .error .attrError

/-- Python `k in d` key-membership test on an object's field list. -/
def jHasKey (fs : List (String × JVal)) (k : String) : Bool :=
  fs.any (fun kv => kv.1 = k)

/-- Substring containment on Lean strings, evaluated over the character
lists so that concrete instances reduce in the kernel. -/
def strContainsSub (hay needle : String) : Bool :=
  decide (needle.toList <:+: hay.toList)

/-- Python `needle in hay` where `needle` is a string and `hay` an arbitrary
value: substring test on strings, element membership on lists, key membership
on dicts, `TypeError` otherwise. -/
def pyInStr (needle : String) (hay : JVal) : Except PyExn Bool :=
  match hay with
  | .str s  => .ok (strContainsSub s needle)
  | .arr xs => .ok (xs.any (fun x => jvalBeq x (.str needle)))
  | .obj fs => .ok (jHasKey fs needle)
  | _       => .error .typeError

/-- Python iteration over a value: lists yield their elements, strings their
characters, dicts their keys; numbers, booleans and `None` raise
`TypeError`. -/
def pyIterate : JVal → Except PyExn (List JVal)
  | .arr xs => .ok xs
  | .str s  => .ok (s.toList.map (fun c => .str (String.mk [c])))
  | .obj fs => .ok (fs.map (fun kv => .str kv.1))
  | _       => .error .typeError

/-- Python `str()` rendering of a JSON value, used by f-string interpolation.
Strings render as themselves; the rendering of structured values is modelled
canonically (no claim depends on it). -/
def pyRenderStr : JVal → String
  | .str s  => s
  | .num n  => toString n
  | .bool b => if b then "True" else "False"
  | .null   => "None"
  | .arr _  => "[...]"
  | .obj _  => "\x7b...\x7d"

/-- Whitespace characters stripped by Python `str.strip()` (the common
ASCII fragment). -/
def isPyWs (c : Char) : Bool :=
  c = ' ' ∨ c = '\t' ∨ c = '\n' ∨ c = '\r'

/-- Python `s.strip()`: drop leading and trailing whitespace.  Implemented
over the character list so that concrete instances reduce in the kernel. -/
def pyStrip (s : String) : String :=
  (((s.toList.dropWhile isPyWs).reverse.dropWhile isPyWs).reverse).asString

/-- Python `s[:n]` on strings. -/
def pyTakeStr (s : String) (n : Nat) : String :=
  (s.toList.take n).asString

/-- Python `s.split("?")[0]`: the prefix of `s` before the first `?`. -/
def splitBeforeQuery (s : String) : String :=
  (s.toList.takeWhile (fun c => c ≠ '?')).asString

/-- Python `s.rstrip("/")`: drop trailing slashes. -/
def rstripSlashes (s : String) : String :=
  ((s.toList.reverse.dropWhile (fun c => c = '/')).reverse).asString

/-- Canonicalization applied to every profile URL by the parser and the DOM
extractor: strip the query string, then trailing slashes
(`href.split("?")[0].rstrip("/")`). -/
def canonicalUrl (s : String) : String :=
  rstripSlashes (splitBeforeQuery s)

/-- Index of the first occurrence of `pat` as a contiguous sublist of `s`. -/
def subIdx (pat : List Char) : List Char → Option Nat
  | [] => if pat = [] then some 0 else none
  | c :: rest =>
      if pat.isPrefixOf (c :: rest) then some 0
      else (subIdx pat rest).map (· + 1)

/-- One step of Python `s.split(sep)` (nonempty `sep`), with fuel. -/
def splitSubGo (pat : List Char) : Nat → List Char → List (List Char)
  | 0, s => [s]
  | fuel + 1, s =>
      match subIdx pat s with
      | none => [s]
      | some i => s.take i :: splitSubGo pat fuel (s.drop (i + pat.length))

/-- Python `s.split(sep)` for a nonempty separator. -/
def pySplitSub (s sep : String) : List String :=
  (splitSubGo sep.toList (s.toList.length + 1) s.toList).map List.asString

/-- Python `s.split(sep)[-1]`: the segment after the last occurrence of
`sep` (or `s` itself when `sep` does not occur). -/
def pyLastSplitSeg (s sep : String) : String :=
  ((pySplitSub s sep).getLast?).getD s

/-! ## Photo descriptor resolution (`_extract_vector_image` and friends) -/

/-- Python `>` between key values produced by `a.get("width", 0)`.
Numbers (and booleans, which are numbers in Python) compare numerically,
strings lexicographically; mixed or unordered types raise `TypeError`
(list/list comparison, which Python would attempt elementwise, is also
modelled as `TypeError`; no inspected payload compares lists). -/
def pyGtJ (a b : JVal) : Except PyExn Bool :=
  match a, b with
  | .num x,  .num y  => .ok (decide (y < x))
  | .str x,  .str y  => .ok (decide (y < x))
  | .bool x, .num y  => .ok (decide (y < (if x then (1 : Int) else 0)))
  | .num x,  .bool y => .ok (decide ((if y then (1 : Int) else 0) < x))
  | .bool x, .bool y => .ok (x && !y)
  | _,       _       => .error .typeError

/-- The key function `lambda a: a.get("width", 0)` of the artifact max. -/
def widthKey (a : JVal) : Except PyExn JVal :=
  jGetM a "width" (.num 0)

/-- Tail of Python `max(arts, key=lambda a: a.get("width", 0))`: fold keeping
the first element whose key all later keys fail to exceed. -/
def pyMaxWidthGo (best bkey : JVal) : List JVal → Except PyExn JVal
  | [] => .ok best
  | x :: rest => do
      let kx ← widthKey x
      let gt ← pyGtJ kx bkey
      if gt then pyMaxWidthGo x kx rest else pyMaxWidthGo best bkey rest

/-- Python `max(arts, key=lambda a: a.get("width", 0))`. -/
def pyMaxWidth (arts : JVal) : Except PyExn JVal := do
  let items ← pyIterate arts
  match items with
  | [] => .error .valueError
  | x :: rest => do
      let kx ← widthKey x
      pyMaxWidthGo x kx rest

/-- Python `+` as used for `root + seg`.  String concatenation; non-string
operands are modelled as `TypeError` (exact for the mixed-type case; Python
would concatenate two lists or add two numbers, shapes no inspected payload
produces). -/
def pyAddStr (a b : JVal) : Except PyExn String :=
  match a, b with
  | .str x, .str y => .ok (x ++ y)
  | _,      _      => .error .typeError

/-- Model of `_extract_vector_image`: best URL of a `{rootUrl, artifacts}` descriptor.
Picks the artifact with the greatest width and concatenates
`rootUrl + fileIdentifyingUrlPathSegment`; empty/absent root or artifacts
give `""`; `TypeError`/`ValueError` during the max are swallowed, every other
exception (notably `AttributeError` from `.get` on a non-dict artifact)
propagates. -/
def extractVectorImage (vi : JVal) : Except PyExn String :=
  match vi with
  | .obj fs =>
      let root := jGetD fs "rootUrl" (.str "")
      let arts := jGetD fs "artifacts" (.arr [])
      if root.truthy && arts.truthy then
        match (do
          let best ← pyMaxWidth arts
          let seg ← jGetM best "fileIdentifyingUrlPathSegment" (.str "")
          if seg.truthy then
            let url ← pyAddStr root seg
            pure (some url)
          else
            pure none : Except PyExn (Option String)) with
        | .ok (some url) => .ok url
        | .ok none => .ok ""
        | .error .typeError => .ok ""
        | .error .valueError => .ok ""
        | .error e => .error e
      else .ok ""
  | _ => .ok ""

/-- Model of `_er_text`: read a text field that is either a plain string or a
`{text, accessibilityText}` object. -/
def erText (fs : List (String × JVal)) (key : String) : JVal :=
  match jLookup fs key with
  | some (.obj vfs) =>
      pyOr (jGetD vfs "text" (.str "")) (jGetD vfs "accessibilityText" (.str ""))
  | some (.str s) => .str s
  | _ => .str ""

/-- The URN→photo cache (`urn_photos`).  Keys are the raw `entityUrn` values
(Python dict keys), values the resolved photo URLs. -/
def Cache := List (JVal × String)

/-- Python `urn_photos.get(k)` key search (first binding wins). -/
def cacheFind (c : Cache) (k : JVal) : Option String :=
  (c.find? (fun kv => jvalBeq kv.1 k)).map (·.2)

/-- Python `k in urn_photos`; unhashable keys raise `TypeError`. -/
def cacheHas (c : Cache) (k : JVal) : Except PyExn Bool :=
  match k with
  | .arr _ => .error .typeError
  | .obj _ => .error .typeError
  | _ => .ok (cacheFind c k).isSome

/-- Python `urn_photos[k] = v`: replace the first binding of `k`, else
append; unhashable keys raise `TypeError`. -/
def cacheSet (c : Cache) (k : JVal) (v : String) : Except PyExn Cache :=
  match k with
  | .arr _ => .error .typeError
  | .obj _ => .error .typeError
  | _ => .ok (cacheSetGo c k v)
where
  cacheSetGo : Cache → JVal → String → Cache
    | [], k, v => [(k, v)]
    | (k', v') :: rest, k, v =>
        if jvalBeq k' k then (k', v) :: rest else (k', v') :: cacheSetGo rest k v

/-- The repeated loop `for ref_key in (...): ref = pp.get(ref_key); if
isinstance(ref, dict): url = _extract_vector_image(ref.get("vectorImage") or
{}); if url: return url` shared by `_er_photo_er` and `_er_photo_included`. -/
def firstPhotoFromRefs (pfs : List (String × JVal)) : List String → Except PyExn (Option String)
  | [] => .ok none
  | k :: rest =>
      match jGetD pfs k .null with
      | .obj rfs => do
          let url ← extractVectorImage (pyOr (jGetD rfs "vectorImage" .null) (.obj []))
          if url ≠ "" then pure (some url) else firstPhotoFromRefs pfs rest
      | _ => firstPhotoFromRefs pfs rest

/-- Model of `_er_photo_included`: photo of a `MiniProfile`/`Profile` object from
`included[]` — `picture.vectorImage` (legacy), then the
`profilePicture.displayImageReference*` variants, then a direct
`vectorImage`. -/
def erPhotoIncluded (fs : List (String × JVal)) : Except PyExn String := do
  let r1 ← (match pyOr (jGet fs "picture") (.obj []) with
    | .obj pfs => do
        let vi := pyOr (jGetD pfs "vectorImage" .null)
                    (pyOr (jGetD pfs "com.linkedin.common.VectorImage" .null) (.obj pfs))
        let url ← extractVectorImage vi
        pure (if url ≠ "" then some url else none)
    | _ => pure (none : Option String))
  match r1 with
  | some u => pure u
  | none => do
    let r2 ← (match jGet fs "profilePicture" with
      | .obj pfs =>
          firstPhotoFromRefs pfs
            ["displayImageReferenceResolutionResult", "displayImageReference",
             "displayImageWithFrameReference", "displayImageWithFrameReferenceUnion"]
      | _ => pure (none : Option String))
    match r2 with
    | some u => pure u
    | none => extractVectorImage (pyOr (jGet fs "vectorImage") (.obj []))

/-- The `for pp_key in (...)` loop of case 3 of `_er_photo_er`. -/
def erPhotoErCase3 (cache : Cache) (dfs : List (String × JVal)) :
    List String → Except PyExn (Option String)
  | [] => .ok none
  | k :: rest =>
      match jGetD dfs k .null with
      | .obj prfs => do
          let ri ← (match pyOr (jGetD prfs "profilePicture" .null) (.obj []) with
            | .obj ifs =>
                firstPhotoFromRefs ifs
                  ["displayImageReferenceResolutionResult", "displayImageReference",
                   "displayImageWithFrameReference", "displayImageWithFrameReferenceUnion"]
            | _ => pure (none : Option String))
          match ri with
          | some u => pure (some u)
          | none => do
            let profileUrn := jGetD prfs "*profile" (.str "")
            if profileUrn.truthy then do
              let hasK ← cacheHas cache profileUrn
              if hasK then pure (some ((cacheFind cache profileUrn).getD ""))
              else erPhotoErCase3 cache dfs rest
            else erPhotoErCase3 cache dfs rest
      | _ => erPhotoErCase3 cache dfs rest

/-- Body of `_er_photo_er` for one element of `er["image"]["attributes"]`.
`AttributeError` from `.get` on a non-dict attribute or detail-data value
propagates (the enclosing `except` clause only catches `KeyError` and
`TypeError`). -/
def erPhotoErAttr (cache : Cache) (attr : JVal) : Except PyExn (Option String) := do
  let dd0 ← jGetM attr "detailData" .null
  let dd1 ← jGetM attr "detailDataUnion" .null
  match pyOr dd0 (pyOr dd1 (.obj [])) with
  | .obj dfs => do
      -- Cas 1 : vectorImage inline
      let r1 ← (match jGetD dfs "vectorImage" .null with
        | .obj vfs => do
            let url ← extractVectorImage (.obj vfs)
            pure (if url ≠ "" then some url else none)
        | _ => pure (none : Option String))
      match r1 with
      | some u => pure (some u)
      | none => do
        -- Cas 2 : profilePicture avec displayImageReference
        let r2 ← (match pyOr (jGetD dfs "profilePicture" .null) (.obj []) with
          | .obj pfs =>
              firstPhotoFromRefs pfs
                ["displayImageReferenceResolutionResult", "displayImageReference",
                 "profilePicture"]
          | _ => pure (none : Option String))
        match r2 with
        | some u => pure (some u)
        | none =>
          -- Cas 3 : nonEntityProfilePicture → URN lookup
          erPhotoErCase3 cache dfs
            ["nonEntityProfilePicture", "profilePictureWithoutFrame",
             "profilePictureWithRingStatus"]
  | _ => .error .attrError

/-- The attribute loop of `_er_photo_er`. -/
def erPhotoErLoop (cache : Cache) : List JVal → Except PyExn (Option String)
  | [] => .ok none
  | a :: rest => do
      match ← erPhotoErAttr cache a with
      | some u => pure (some u)
      | none => erPhotoErLoop cache rest

/-- The `except (KeyError, TypeError): pass / return ""` wrapper of
`_er_photo_er`. -/
def catchKT (e : Except PyExn (Option String)) : Except PyExn String :=
  match e with
  | .ok (some u) => .ok u
  | .ok none => .ok ""
  | .error .keyError => .ok ""
  | .error .typeError => .ok ""
  | .error ex => .error ex

/-- Python `v[k]` subscription: `KeyError` for a missing dict key,
`TypeError` on non-dict values. -/
def jIndexStr (v : JVal) (k : String) : Except PyExn JVal :=
  match v with
  | .obj fs => match jLookup fs k with
    | some x => .ok x
    | none => .error .keyError
  | _ => .error .typeError

/-- Model of `_er_photo_er`: photo of an `entityResult`/`EntityResultViewModel` node,
walking `er["image"]["attributes"]`; `KeyError`/`TypeError` yield `""`. -/
def erPhotoEr (cache : Cache) (fs : List (String × JVal)) : Except PyExn String :=
  catchKT (do
    let image ← (match jLookup fs "image" with
      | some v => Except.ok v
      | none => Except.error PyExn.keyError)
    let attrsV ← jIndexStr image "attributes"
    let attrs ← pyIterate attrsV
    erPhotoErLoop cache attrs)

/-! ## The Voyager record parser (`_parse_voyager_response`)

The two recursive walks bound their recursion depth with a counter that the
source increments towards a cap (`depth > 15` for `walk_er`, `depth > 12`
for `walk_nav`).  The embedding counts the remaining budget downwards
instead: `budget = cap + 1 - depth`, so the walks start at budget 16
respectively 13 and a call at budget 0 returns immediately — the guard and
the recursion are otherwise verbatim. -/

/-- One raw extraction tuple: the dict
`{"href": ..., "nom": ..., "titre": ..., "photo_url": ...}` appended to
`results`.  `href` is always a canonicalized string by construction; the
name/title fields can carry arbitrary JSON values (`_er_text` returns a raw
inner `text` value unchanged). -/
structure RawTuple where
  href : String
  nom : JVal
  titre : JVal
  photo : String

/-- The mutable parser state: the `results` list and the `seen` set of
canonical URLs (represented as the list of its elements in insertion
order). -/
structure PSt where
  results : List RawTuple
  seen : List String

/-- The body executed by `walk_er` on an entity-result dict `er` (computing
`href`, `nom`, `titre`, `photo` and conditionally appending a tuple).  The
photo is resolved before the navigation-URL test, as in the source. -/
def processEntityResult (cache : Cache) (efs : List (String × JVal)) (st : PSt) :
    Except PyExn PSt := do
  let href := jGetD efs "navigationUrl" (.str "")
  let nom := erText efs "title"
  let titre := pyOr (erText efs "primarySubtitle") (erText efs "secondarySubtitle")
  let photo ← erPhotoEr cache efs
  if href.truthy then do
    let m ← pyInStr "linkedin.com/in/" href
    if m then
      match href with
      | .str hs =>
          let clean := canonicalUrl hs
          if st.seen.contains clean then pure st
          else pure ⟨st.results ++ [⟨clean, nom, titre, photo⟩], st.seen ++ [clean]⟩
      | _ => .error .attrError
    else pure st
  else pure st

/-- Strategy 1, `walk_er`: recursively look for `entityResult` wrappers or
self-describing `EntityResultViewModel` nodes.  The `for item in ...` /
`for v in node.values()` descents are the `foldlM` over the child list at
the decremented budget. -/
def walkEr (cache : Cache) : Nat → JVal → PSt → Except PyExn PSt
  | 0, _, st => .ok st
  | b + 1, node, st =>
    match node with
    | .arr xs => xs.foldlM (fun s x => walkEr cache b x s) st
    | .obj fs => do
        let isErvm ← pyInStr "EntityResultViewModel" (jGetD fs "$type" (.str ""))
        let er : Option (List (String × JVal)) :=
          if jHasKey fs "entityResult" then
            match jLookup fs "entityResult" with
            | some (.obj cfs) => some cfs
            | _ => none
          else if isErvm then some fs
          else none
        match er with
        | some efs =>
            if !efs.isEmpty then do
              let st' ← processEntityResult cache efs st
              if isErvm then pure st'
              else (fs.map (·.2)).foldlM (fun s x => walkEr cache b x s) st'
            else (fs.map (·.2)).foldlM (fun s x => walkEr cache b x s) st
        | none => (fs.map (·.2)).foldlM (fun s x => walkEr cache b x s) st
    | _ => .ok st

/-- The pre-scan over `included[]` building the URN→photo cache; only
non-empty photo URLs are written.  An exception aborts the scan but the
cache updates made so far survive (Python mutates the dict in place). -/
def prescanLoop : List JVal → Cache → Cache × Except PyExn Unit
  | [], c => (c, .ok ())
  | e :: rest, c =>
    match e with
    | .obj efs =>
        let urn := jGetD efs "entityUrn" (.str "")
        if !urn.truthy then prescanLoop rest c
        else
          match erPhotoIncluded efs with
          | .error ex => (c, .error ex)
          | .ok photo =>
              if photo ≠ "" then
                match cacheSet c urn photo with
                | .error ex => (c, .error ex)
                | .ok c' => prescanLoop rest c'
              else prescanLoop rest c
    | _ => prescanLoop rest c

/-- The second pass of strategy 1: `walk_er(entity, 0)` on every
`EntityResultViewModel` found directly in `included[]`. -/
def ervmIncludedLoop (cache : Cache) : List JVal → PSt → Except PyExn PSt
  | [], st => .ok st
  | e :: rest, st =>
    match e with
    | .obj efs => do
        let c ← pyInStr "EntityResultViewModel" (jGetD efs "$type" (.str ""))
        let st' ← if c then walkEr cache 16 (.obj efs) st else pure st
        ervmIncludedLoop cache rest st'
    | _ => ervmIncludedLoop cache rest st

/-- Strategy 2: scan `included[]` for `MiniProfile`/`Profile` entities.
This loop runs unconditionally after strategy 1 (it is not guarded by
`results` being empty), skipping only profile URLs already seen. -/
def strat2Loop (cache : Cache) : List JVal → PSt → Except PyExn PSt
  | [], st => .ok st
  | e :: rest, st =>
    match e with
    | .obj efs => do
        let etype := jGetD efs "$type" (.str "")
        let m1 ← pyInStr "MiniProfile" etype
        let isProfile ← (if m1 then pure true else do
          let m2 ← pyInStr "dash.identity.profile.Profile" etype
          if m2 then pure true else pyInStr "voyager.identity.profile.Profile" etype)
        if !isProfile then strat2Loop cache rest st
        else do
          let pub := pyOr (jGet efs "publicIdentifier") (jGetD efs "vanityName" (.str ""))
          if !pub.truthy then strat2Loop cache rest st
          else do
            let href := "https://www.linkedin.com/in/" ++ pyRenderStr pub
            if st.seen.contains href then strat2Loop cache rest st
            else do
              let nomJoin := pyStrip (pyRenderStr (jGetD efs "firstName" (.str "")) ++ " " ++
                               pyRenderStr (jGetD efs "lastName" (.str "")))
              let nom : JVal := if nomJoin ≠ "" then .str nomJoin else jGetD efs "name" (.str "")
              let titre := pyOr (jGet efs "occupation") (pyOr (jGet efs "headline") (.str ""))
              let urn := jGetD efs "entityUrn" (.str "")
              let cachePhoto ← (match urn with
                | .arr _ => Except.error PyExn.typeError
                | .obj _ => Except.error PyExn.typeError
                | _ => Except.ok ((cacheFind cache urn).getD ""))
              let photo ← (if cachePhoto ≠ "" then pure cachePhoto else erPhotoIncluded efs)
              strat2Loop cache rest
                ⟨st.results ++ [⟨href, nom, titre, photo⟩], st.seen ++ [href]⟩
    | _ => strat2Loop cache rest st

/-- Strategy 3, `walk_nav`: last-resort walk for any dict carrying a
profile-shaped `navigationUrl`; runs only when strategies 1–2 produced no
result. -/
def walkNav (cache : Cache) : Nat → JVal → PSt → Except PyExn PSt
  | 0, _, st => .ok st
  | b + 1, node, st =>
    match node with
    | .arr xs => xs.foldlM (fun s x => walkNav cache b x s) st
    | .obj fs => do
        let nav := jGetD fs "navigationUrl" (.str "")
        if nav.truthy then do
          let m ← pyInStr "linkedin.com/in/" nav
          if m then
            match nav with
            | .str ns =>
                let clean := canonicalUrl ns
                if st.seen.contains clean then pure st
                else do
                  let nom := pyOr (erText fs "title") (erText fs "name")
                  let titre := pyOr (erText fs "primarySubtitle") (erText fs "subtitle")
                  let photo ← erPhotoEr cache fs
                  pure ⟨st.results ++ [⟨clean, nom, titre, photo⟩], st.seen ++ [clean]⟩
            | _ => .error .attrError
          else (fs.map (·.2)).foldlM (fun s x => walkNav cache b x s) st
        else (fs.map (·.2)).foldlM (fun s x => walkNav cache b x s) st
    | _ => .ok st

/-- The input of `_parse_voyager_response`: either bytes that fail
`json.loads` or a parsed JSON value. -/
inductive JsonInput where
  | malformed
  | wellFormed (v : JVal)

/-- Model of `included = data.get("included") if isinstance(data, dict) else None`,
restricted by the `isinstance(included, list)` guard of every use site. -/
def includedOf (data : JVal) : Option (List JVal) :=
  match data with
  | .obj fs =>
      match jLookup fs "included" with
      | some (.arr xs) => some xs
      | _ => none
  | _ => none

/-- Model of `_parse_voyager_response(body_bytes, urn_photos)`.  Returns the cache
after the pre-scan (the only writer) together with either the extracted
tuple list or the Python exception that escaped.  Malformed JSON gives an
empty list. -/
def parseVoyagerResponse (inp : JsonInput) (cache0 : Cache) :
    Cache × Except PyExn (List RawTuple) :=
  match inp with
  | .malformed => (cache0, .ok [])
  | .wellFormed data =>
    let includedItems : Option (List JVal) := includedOf data
    let pre :=
      match includedItems with
      | some xs => prescanLoop xs cache0
      | none => (cache0, .ok ())
    match pre.2 with
    | .error e => (pre.1, .error e)
    | .ok () =>
      let c1 := pre.1
      match walkEr c1 16 data ⟨[], []⟩ with
      | .error e => (c1, .error e)
      | .ok st1 =>
        match (match includedItems with
               | some xs => ervmIncludedLoop c1 xs st1
               | none => .ok st1) with
        | .error e => (c1, .error e)
        | .ok st2 =>
          match (match includedItems with
                 | some xs => strat2Loop c1 xs st2
                 | none => .ok st2) with
          | .error e => (c1, .error e)
          | .ok st3 =>
            if st3.results.isEmpty then
              match walkNav c1 13 data st3 with
              | .error e => (c1, .error e)
              | .ok st4 => (c1, .ok st4.results)
            else (c1, .ok st3.results)

/-! ## The crawl round loop (`LinkedInScraper._run`, lines 522–628)

The browser and network are external: a `RoundInput` records what one
iteration of the `while` loop observes — the parsed tuples of the Voyager
responses intercepted this round, the DOM-extracted tuples, and whether a
"load more" control was clicked.  Tuples here carry plain string fields (the
DOM extractor produces strings, and on the string-shaped payloads the claims
quantify over so does the parser); the network download of `_dl_photo` is
abstracted (its `photo_path`/`error` outcome depends on the HTTP fetch), its
url/name/title handling is kept. -/

/-- One item of `voyager_buffer`/`dom_raw`:
`{"href", "nom", "titre", "photo_url"}` with string fields. -/
structure CrawlTuple where
  href : String
  nom : String
  titre : String
  photo : String
  deriving DecidableEq, Repr

/-- The `Profile` dataclass. -/
structure Profile where
  url : String
  nom : String := ""
  titre : String := ""
  photo_url : String := ""
  photo_path : String := ""
  error : String := ""
  deriving DecidableEq, Repr

/-- Model of `_dl_photo` without the network fetch: builds the `Profile` record from
one raw item (name stripped and truncated to 80, title to 120).  The
download outcome (`photo_path`, HTTP `error`) is abstracted to the
no-download case. -/
def dlPhoto (item : CrawlTuple) : Profile :=
  { url := item.href
    nom := pyTakeStr (pyStrip item.nom) 80
    titre := pyTakeStr (pyStrip item.titre) 120
    photo_url := item.photo
    photo_path := ""
    error := if item.photo = "" then "Pas de photo publique" else "" }

/-- What one iteration of the crawl loop observes from the outside world. -/
structure RoundInput where
  apiParsed : List (List CrawlTuple)
  domRaw : List CrawlTuple
  clicked : Bool

/-- The mutable state of the crawl loop: `seen_urls`, `profiles`, the stale
counter, and whether the loop has exited via the stale-round `break`. -/
structure CrawlState where
  seen : List String
  profiles : List Profile
  stale : Nat
  halted : Bool

/-- Add a URL to the `seen_urls` set (list kept duplicate-free). -/
def seenAdd (s : List String) (u : String) : List String :=
  if s.contains u then s else s ++ [u]

/-- Replace-or-append into the `dom_by_slug` dict. -/
def slugSet (m : List (String × CrawlTuple)) (k : String) (v : CrawlTuple) :
    List (String × CrawlTuple) :=
  match m with
  | [] => [(k, v)]
  | (k', v') :: rest => if k' = k then (k', v) :: rest else (k', v') :: slugSet rest k v

/-- The `dom_by_slug` construction: index DOM tuples by the URL slug after
`/in/`. -/
def domBySlug (domRaw : List CrawlTuple) : List (String × CrawlTuple) :=
  domRaw.foldl (fun m d =>
    let dh := canonicalUrl d.href
    if strContainsSub dh "/in/" then slugSet m (pyLastSplitSeg dh "/in/") d else m) []

/-- The photo-merge pass: every API tuple lacking a photo copies the photo
of the DOM tuple with the same slug, when one exists. -/
def mergePhotos (dom : List (String × CrawlTuple)) (items : List CrawlTuple) :
    List CrawlTuple :=
  items.map (fun item =>
    if item.photo = "" then
      let ih := canonicalUrl item.href
      let slug := if strContainsSub ih "/in/" then pyLastSplitSeg ih "/in/" else ""
      match (dom.find? (fun kv => kv.1 = slug)).map (·.2) with
      | some d => if d.photo ≠ "" then { item with photo := d.photo } else item
      | none => item
    else item)

/-- The effective source list `raw` of a round: the Voyager tuples of this
round not yet seen, photo-enriched from the DOM, or — when that is empty —
the unseen DOM tuples. -/
def roundRaw (st : CrawlState) (r : RoundInput) : List CrawlTuple :=
  let freshV := r.apiParsed.flatten
  let rawV := freshV.filter (fun t => !st.seen.contains t.href)
  if !rawV.isEmpty then mergePhotos (domBySlug r.domRaw) rawV
  else r.domRaw.filter (fun t => !st.seen.contains t.href)

/-- One iteration of the crawl `while` loop, steps 1–5 of `_run`: consume
the Voyager tuples of the round, merge or fall back to DOM, extend `seen_urls`,
truncate to remaining capacity, append the downloaded profiles, and update
the stale counter / exit condition. -/
def crawlRound (maxP maxStale : Nat) (st : CrawlState) (r : RoundInput) : CrawlState :=
  let raw := roundRaw st r
  let seen' := raw.foldl (fun s item => seenAdd s item.href) st.seen
  let slots := maxP - st.profiles.length
  let batch := raw.take slots
  let done := batch.map dlPhoto
  let profiles' := st.profiles ++ done
  if done.isEmpty && !r.clicked then
    let stale' := st.stale + 1
    if maxStale ≤ stale' then
      { seen := seen', profiles := profiles', stale := stale', halted := true }
    else
      { seen := seen', profiles := profiles', stale := stale', halted := false }
  else
    { seen := seen', profiles := profiles', stale := 0, halted := st.halted }

/-- The crawl loop over a finite stream of round observations (the loop
condition `len(profiles) < max_profiles` is checked before each round, and
the stale-round `break` stops all further consumption). -/
def runRounds (maxP maxStale : Nat) : CrawlState → List RoundInput → CrawlState
  | st, [] => st
  | st, r :: rest =>
      if st.halted then st
      else if maxP ≤ st.profiles.length then st
      else runRounds maxP maxStale (crawlRound maxP maxStale st r) rest

/-- The initial crawl-loop state: `seen_urls = set(self._skip_urls)`,
no profiles, stale counter zero. -/
def initCrawlState (skip : List String) : CrawlState :=
  { seen := skip, profiles := [], stale := 0, halted := false }

/-- Python `max(1, int(max_stale_rounds))` from `LinkedInScraper.__init__`. -/
def clampMaxStale (n : Int) : Nat := (max 1 n).toNat

/-- The default value of the `max_stale_rounds` parameter. -/
def defaultMaxStaleRounds : Int := 3

/-- The credential validation of `LinkedInScraper.scrape` (the cookie was
stripped in `__init__`): non-empty, at least 50 characters, not the
placeholder. -/
def cookieValid (li_at_raw : String) : Bool :=
  let li := pyStrip li_at_raw
  !(li = "" || li.length < 50 || li = "VOTRE_COOKIE")

/-- Model of `LinkedInScraper.scrape`: validate the cookie before any network or
browser activity; an invalid cookie returns `[]` without consuming any
round observation, a valid one runs the crawl loop. -/
def scrapeModel (li_at_raw : String) (maxP : Nat) (maxStaleRaw : Int)
    (skip : List String) (rounds : List RoundInput) : List Profile :=
  if !cookieValid li_at_raw then []
  else (runRounds maxP (clampMaxStale maxStaleRaw) (initCrawlState skip) rounds).profiles

/-- The credential check of `AlumniOSINTPipeline.run`: raises `ValueError`
before anything else when the (stripped) cookie is empty, the placeholder,
or shorter than 50 characters. -/
def pipelineRunModel (li_at_raw : String) (collected : List Profile) :
    Except String (List Profile) :=
  let li := pyStrip li_at_raw
  if li = "" || li = "VOTRE_COOKIE" || li.length < 50 then
    .error "li_at cookie is missing or invalid."
  else .ok collected

/-! ## The segmented controllers (`scrape_all_alumni.py`, `scrape_post2022.py`) -/

/-- One step of the URL-deduplicating accumulation used by
`scrape_all_alumni.main` both when loading `profiles.json` and when folding
in a segment's batch: append the record unless its URL was seen. -/
def dedupAppend (acc : List Profile × List String) (p : Profile) :
    List Profile × List String :=
  if acc.2.contains p.url then acc else (acc.1 ++ [p], acc.2 ++ [p.url])

/-- Model of `scrape_all_alumni.main`: load the existing records (dedup by URL), then
fold every segment's scraped batch through the same URL dedup.  The batches
are the lists returned by the per-segment `LinkedInScraper.scrape` calls. -/
def scrapeAllRun (existing : List Profile) (batches : List (List Profile)) :
    List Profile × List String :=
  batches.foldl (fun acc batch => batch.foldl dedupAppend acc)
    (existing.foldl dedupAppend ([], []))

/-- The state threaded by `scrape_post2022.main`: the accumulated records
and the two seen-sets (canonical URLs and normalized display names). -/
structure P2State where
  allProfiles : List Profile
  seenUrls : List String
  seenNames : List String

/-- Startup of `scrape_post2022.main`: the persisted records are loaded
as-is, and the seen-sets are built from their stripped URLs and normalized
names.  The name-normalization function (`normalize_name`, which delegates
to the Unicode library for NFKD/diacritic stripping) is a parameter. -/
def p2LoadStep (norm : String → String) (st : P2State) (p : Profile) : P2State :=
  let url := pyStrip p.url
  let st := if url ≠ "" ∧ ¬ st.seenUrls.contains url then
      { st with seenUrls := st.seenUrls ++ [url] } else st
  let key := norm p.nom
  if key ≠ "" ∧ ¬ st.seenNames.contains key then
    { st with seenNames := st.seenNames ++ [key] } else st

def p2Load (norm : String → String) (existing : List Profile) : P2State :=
  existing.foldl (p2LoadStep norm) ⟨existing, [], []⟩

/-- The per-year batch fold of `scrape_post2022.main`: skip a record whose
non-empty URL or non-empty normalized name was already seen, otherwise
record both keys and append it. -/
def p2AddStep (norm : String → String) (st : P2State) (p : Profile) : P2State :=
  let url := pyStrip p.url
  let key := norm p.nom
  if url ≠ "" ∧ st.seenUrls.contains url then st
  else if key ≠ "" ∧ st.seenNames.contains key then st
  else { allProfiles := st.allProfiles ++ [p]
         seenUrls := if url ≠ "" then st.seenUrls ++ [url] else st.seenUrls
         seenNames := if key ≠ "" then st.seenNames ++ [key] else st.seenNames }

def p2AddBatch (norm : String → String) (st : P2State) (batch : List Profile) : P2State :=
  batch.foldl (p2AddStep norm) st

/-- The year loop of `scrape_post2022.main`: a year whose label is in the
`.years_done` marker is skipped; otherwise its batch is folded in and its
label appended to the marker file.  Returns the final state and the labels
appended to the marker during this run. -/
def p2Run (norm : String → String) (doneYears : List String) (segments : List String)
    (batches : String → List Profile) (st0 : P2State) : P2State × List String :=
  segments.foldl (fun acc label =>
    if doneYears.contains label then acc
    else (p2AddBatch norm acc.1 (batches label), acc.2 ++ [label])) (st0, [])

/-! ## The face index (`core/face_index.py`) -/

/-- A `SearchResult`: the `match` flag of the source is called `isMatch`
(`match` is reserved in Lean). -/
structure SearchResult (Prof : Type) where
  photoPath : String
  distance : ℚ
  confidence : ℚ
  isMatch : Bool
  profile : Prof
  deriving DecidableEq, Repr

/-- The `SearchResult.__init__` computation:
`confidence = max(0, 1 - distance/tol)` when `distance ≤ tol`, else `0`;
`match = distance ≤ tol`.  Distances and the tolerance are embedded as
rationals. -/
def mkSearchResult {Prof : Type} (tol : ℚ) (photoPath : String) (dist : ℚ)
    (profile : Prof) : SearchResult Prof :=
  { photoPath := photoPath
    distance := dist
    confidence := if dist ≤ tol then max 0 (1 - dist / tol) else 0
    isMatch := decide (dist ≤ tol)
    profile := profile }

/-- One index entry `(encoding, profile, photo_path)`. -/
structure FaceEntry (Emb Prof : Type) where
  enc : Emb
  profile : Prof
  photoPath : String
  deriving DecidableEq, Repr

/-- The key order of `sorted(zip(distances, entries), key=lambda x: x[0])`. -/
def keyLe {α : Type} (a b : ℚ × α) : Prop := a.1 ≤ b.1

instance {α : Type} : DecidableRel (@keyLe α) :=
  fun a b => inferInstanceAs (Decidable (a.1 ≤ b.1))

instance {α : Type} : IsTotal (ℚ × α) keyLe := ⟨fun a b => le_total a.1 b.1⟩

instance {α : Type} : IsTrans (ℚ × α) keyLe := ⟨fun _ _ _ => le_trans⟩

/-- Python `ranked[:top_k]` (`top_k` is an `int`; a negative value drops
elements from the end). -/
def pySliceTake {α : Type} (k : Int) (l : List α) : List α :=
  if k < 0 then l.take (l.length - k.natAbs) else l.take k.toNat

/-- The outcome of constructing a `FaceIndex` over an index file:
`__init__` skips `_load()` when the file is missing, and `_load` turns any
unpickling failure into an empty entry list. -/
inductive IndexFile (Emb Prof : Type) where
  | missing
  | corrupt
  | good (entries : List (FaceEntry Emb Prof))

/-- The entry list a `FaceIndex` holds after construction. -/
def loadEntries {Emb Prof : Type} : IndexFile Emb Prof → List (FaceEntry Emb Prof)
  | .missing => []
  | .corrupt => []
  | .good l => l

/-- Model of `FaceIndex.search`: raise `ValueError` on an empty index; an empty
face-encoding list for the query image returns `[]`; otherwise compute the
distance from the first query encoding to every stored encoding, sort
ascending (the stable Python sort, modelled as ordered insertion on the key), take
the first `top_k` and build the `SearchResult`s.  The dlib face-encoding and
distance computations are external: the query encodings `queryEncs` and
the distance function `dist` are parameters. -/
def faceSearch {Emb Prof : Type} (dist : Emb → Emb → ℚ) (tol : ℚ)
    (entries : List (FaceEntry Emb Prof)) (queryEncs : List Emb) (topK : Int) :
    Except String (List (SearchResult Prof)) :=
  if entries.isEmpty then .error "index vide"
  else
    match queryEncs with
    | [] => .ok []
    | q :: _ =>
        let distances := entries.map (fun e => dist e.enc q)
        let ranked := List.insertionSort keyLe (distances.zip entries)
        .ok ((pySliceTake topK ranked).map
          (fun de => mkSearchResult tol de.2.photoPath de.1 de.2.profile))

/-! ## Derived notions used by the verified properties -/

/-- The URLs of a collected profile list. -/
def urlsOf (ps : List Profile) : List String := ps.map (·.url)

/-- A resolution artifact `{"width": w, "fileIdentifyingUrlPathSegment": seg}`. -/
def mkArtifact (w : Int) (seg : String) : JVal :=
  .obj [("width", .num w), ("fileIdentifyingUrlPathSegment", .str seg)]

/-- A dict node that triggers neither arm of strategy 1: no `entityResult`
key, and a `$type` that is absent or a string not containing
`EntityResultViewModel`. -/
def noTrigObj (fs : List (String × JVal)) : Bool :=
  !jHasKey fs "entityResult" &&
  (match jLookup fs "$type" with
   | none => true
   | some (.str s) => !strContainsSub s "EntityResultViewModel"
   | some _ => false)

/-- A payload shaped only for strategy 3 down to the inspected depth: no
dict reachable within `fuel` levels (the `walk_er` budget, 16 from the top)
triggers strategy 1. -/
def noStrat12F : Nat → JVal → Bool
  | 0, _ => true
  | b + 1, .arr xs => xs.all (noStrat12F b)
  | b + 1, .obj fs => noTrigObj fs && (fs.map (·.2)).all (noStrat12F b)
  | _ + 1, _ => true

/-- The payload has no top-level `included` list (so the pre-scan, the
`EntityResultViewModel` pass over `included` and strategy 2 are all
skipped). -/
def includedNotList (data : JVal) : Bool :=
  match data with
  | .obj fs =>
      match jLookup fs "included" with
      | some (.arr _) => false
      | _ => true
  | _ => true

/-- The cache resulting from a sequence of parser calls sharing one
`urn_photos` dict (one crawl session). -/
def parseSeqCache (inps : List JsonInput) (c : Cache) : Cache :=
  inps.foldl (fun c i => (parseVoyagerResponse i c).1) c

/-- The `on_response` interception callback around the parser: the whole
body is wrapped in `try: ... except Exception: pass`, so a parser exception
leaves the buffer untouched (the cache keeps the pre-scan writes made
before the exception). -/
def onResponseModel (inp : JsonInput) (c : Cache) (buffer : List RawTuple) :
    List RawTuple × Cache :=
  match parseVoyagerResponse inp c with
  | (c', .ok parsed) => (buffer ++ parsed, c')
  | (c', .error _) => (buffer, c')

/-! ### Concrete inputs used by counterexamples and witnesses -/

/-- A well-formed payload whose `included[]` entity carries a
`picture.vectorImage` with an artifacts list containing a non-object
element (`5`). -/
def cexArtifactsPayload : JVal :=
  .obj [("included", .arr [.obj [("entityUrn", .str "urn:x"),
    ("picture", .obj [("vectorImage", .obj [("rootUrl", .str "http://r/"),
      ("artifacts", .arr [.num 5])])])]])]

/-- A payload on which strategy 1 finds one profile (via an `entityResult`
wrapper) while `included[]` also holds a `MiniProfile` with a different
public identifier. -/
def cexStrat2Payload : JVal :=
  .obj [
    ("data", .obj [("entityResult", .obj [
       ("navigationUrl", .str "https://www.linkedin.com/in/alice"),
       ("title", .obj [("text", .str "Alice A")]),
       ("primarySubtitle", .obj [("text", .str "Eng")])])]),
    ("included", .arr [.obj [
       ("$type", .str "com.linkedin.voyager.identity.shared.MiniProfile"),
       ("publicIdentifier", .str "bob"),
       ("firstName", .str "Bob"), ("lastName", .str "B"),
       ("occupation", .str "Dev")]])]

/-- A payload shaped only for strategy 3: one element with a flat
`navigationUrl`, no `entityResult`, no type tags, no `included`. -/
def cexFlatNavPayload : JVal :=
  .obj [("elements", .arr [.obj [
    ("navigationUrl", .str "https://www.linkedin.com/in/carl?x=1"),
    ("title", .str "Carl")]])]

/-- One parsed crawl tuple for the profile `alice`. -/
def aliceTuple : CrawlTuple :=
  ⟨"https://www.linkedin.com/in/alice", "Alice", "", ""⟩

/-- A crawl round whose intercepted traffic contains two API responses both
yielding the `alice` tuple (each response is internally deduplicated by the
parser, but the buffer slice of the round concatenates them). -/
def dupRound : RoundInput :=
  ⟨[[aliceTuple], [aliceTuple]], [], true⟩

/-! ## Theorems -/

/-- C4 counterexample: on a well-formed JSON payload whose artifacts list
contains the non-object element `5`, `_parse_voyager_response` raises
`AttributeError` past its boundary (the `except (TypeError, ValueError)`
clause around the artifact max does not catch it), instead of returning a
list. -/
theorem parse_artifacts_nonobject_raises :
    parseVoyagerResponse (.wellFormed cexArtifactsPayload) [] =
      ([], .error .attrError) := rfl

/-- C4 amended: malformed JSON yields the empty list without error, and the
`on_response` interception callback catches every parser exception, so the
intercepted-profile buffer always either extends by the parsed records or
stays unchanged — no error propagates past the interception boundary. -/
theorem parse_malformed_empty_and_interceptor_total :
    (∀ c : Cache, parseVoyagerResponse .malformed c = (c, .ok [])) ∧
    (∀ (inp : JsonInput) (c : Cache) (buf : List RawTuple),
      ∃ extra, (onResponseModel inp c buf).1 = buf ++ extra) := by
  constructor
  · intro c; rfl
  · intro inp c buf
    unfold onResponseModel
    rcases h : parseVoyagerResponse inp c with ⟨c', r⟩
    cases r with
    | ok parsed => exact ⟨parsed, rfl⟩
    | error e => exact ⟨[], by simp⟩

/-- C8: an empty, too-short (fewer than 50 characters after stripping) or
placeholder credential makes `LinkedInScraper.scrape` return zero records
without consuming any round observation, and makes
`AlumniOSINTPipeline.run` fail with `ValueError` — both before any network
activity. -/
theorem credential_shortcircuit (li : String) (maxP : Nat) (ms : Int)
    (skip : List String) (rounds : List RoundInput) (collected : List Profile)
    (h : pyStrip li = "" ∨ (pyStrip li).length < 50 ∨
         pyStrip li = "VOTRE_COOKIE") :
    scrapeModel li maxP ms skip rounds = [] ∧
    ∃ e, pipelineRunModel li collected = .error e := by
  constructor
  · unfold scrapeModel cookieValid
    rcases h with h | h | h <;> simp [h]
  · unfold pipelineRunModel
    rcases h with h | h | h <;>
      exact ⟨"li_at cookie is missing or invalid.", by simp [h]⟩

/-- Witness for `credential_shortcircuit` at the placeholder credential. -/
theorem credential_shortcircuit_witness :
    (pyStrip "VOTRE_COOKIE" = "" ∨ (pyStrip "VOTRE_COOKIE").length < 50 ∨
      pyStrip "VOTRE_COOKIE" = "VOTRE_COOKIE") ∧
    (scrapeModel "VOTRE_COOKIE" 5 3 [] [dupRound] = [] ∧
      ∃ e, pipelineRunModel "VOTRE_COOKIE" [] = .error e) :=
  ⟨Or.inr (Or.inl (by decide)),
   credential_shortcircuit "VOTRE_COOKIE" 5 3 [] [dupRound] []
     (Or.inr (Or.inl (by decide)))⟩

/-- C10 counterexample: with a non-empty index and a query in which a face
IS detected, `top_k = 0` already returns the empty list — so an empty
result does not imply that no face was detected. -/
theorem faceSearch_topk_zero_empty :
    faceSearch (fun a _ => a) (55/100 : ℚ)
      [(⟨0, "p", "f"⟩ : FaceEntry ℚ String)] [(1 : ℚ)] 0 = .ok [] := rfl

/-- C10 amended: on an empty entry list — in particular after a missing or
corrupt index file was loaded as an empty index — `FaceIndex.search` raises
`ValueError` for every query and every `topK`; and for `topK ≥ 1` an empty
result list is returned only when the index is non-empty and no face was
detected in the query image. -/
theorem faceSearch_empty_index_raises :
    (∀ (Emb Prof : Type) (file : IndexFile Emb Prof), loadEntries file = [] →
      ∀ (dist : Emb → Emb → ℚ) (tol : ℚ) (qE : List Emb) (topK : Int),
        faceSearch dist tol (loadEntries file) qE topK = .error "index vide") ∧
    (∀ (Emb Prof : Type) (dist : Emb → Emb → ℚ) (tol : ℚ)
      (entries : List (FaceEntry Emb Prof)) (qE : List Emb) (topK : Int),
      1 ≤ topK → faceSearch dist tol entries qE topK = .ok [] →
      entries ≠ [] ∧ qE = []) := by
  constructor
  · intro Emb Prof file hfile dist tol qE topK
    rw [hfile]
    rfl
  · intro Emb Prof dist tol entries qE topK hk h
    unfold faceSearch at h
    by_cases hne : entries.isEmpty
    · rw [if_pos hne] at h
      exact absurd h (by simp)
    · rw [if_neg hne] at h
      have hne' : entries ≠ [] := by
        simpa [List.isEmpty_iff] using hne
      refine ⟨hne', ?_⟩
      cases qE with
      | nil => rfl
      | cons q qs =>
        exfalso
        simp only [Except.ok.injEq] at h
        rw [List.map_eq_nil_iff] at h
        unfold pySliceTake at h
        rw [if_neg (by omega)] at h
        rw [List.take_eq_nil_iff] at h
        rcases h with h | h
        · omega
        · have hperm := List.perm_insertionSort keyLe
            ((entries.map (fun e => dist e.enc q)).zip entries)
          rw [h] at hperm
          have hlen := hperm.length_eq
          simp at hlen
          exact hne' (List.length_eq_zero.mp hlen.symm)

/-- Witness for `faceSearch_empty_index_raises` at a corrupt index file and
at a faceless query against a one-entry index. -/
theorem faceSearch_empty_index_raises_witness :
    (loadEntries (.corrupt : IndexFile ℚ String) = [] ∧
      faceSearch (fun a _ => a) 1 (loadEntries (.corrupt : IndexFile ℚ String))
        [(1 : ℚ)] 5 = .error "index vide") ∧
    ((1 : Int) ≤ 1 ∧
      faceSearch (fun a _ => a) 1 [(⟨0, "p", "f"⟩ : FaceEntry ℚ String)]
        ([] : List ℚ) 1 = .ok [] ∧
      ([(⟨0, "p", "f"⟩ : FaceEntry ℚ String)] ≠ [] ∧ ([] : List ℚ) = [])) :=
  ⟨⟨rfl, faceSearch_empty_index_raises.1 ℚ String .corrupt rfl (fun a _ => a) 1 [(1 : ℚ)] 5⟩,
   ⟨by decide, rfl,
    faceSearch_empty_index_raises.2 ℚ String (fun a _ => a) 1
      [⟨0, "p", "f"⟩] [] 1 (by decide) rfl⟩⟩

/-- C3: on a non-empty index and a query with a detected face,
`FaceIndex.search` returns at most `topK` results, sorted by non-decreasing
distance, and every result carries
`confidence = max(0, 1 - distance/threshold)` when `distance ≤ threshold`
(else `0`) and `match ⟺ distance ≤ threshold`. -/
theorem faceSearch_sorted_conf (Emb Prof : Type) (dist : Emb → Emb → ℚ) (tol : ℚ)
    (entries : List (FaceEntry Emb Prof)) (queryEncs : List Emb) (topK : Int)
    (hne : entries ≠ []) (hq : queryEncs ≠ []) (hk : 0 ≤ topK) :
    ∃ rs, faceSearch dist tol entries queryEncs topK = .ok rs ∧
      rs.length ≤ topK.toNat ∧
      List.Sorted (· ≤ ·) (rs.map (·.distance)) ∧
      ∀ r ∈ rs,
        r.confidence = (if r.distance ≤ tol then max 0 (1 - r.distance / tol) else 0) ∧
        (r.isMatch = true ↔ r.distance ≤ tol) := by
  cases queryEncs with
  | nil => exact absurd rfl hq
  | cons q qs =>
    have hemp : entries.isEmpty = false := by
      simp [List.isEmpty_iff, hne]
    unfold faceSearch
    rw [hemp]
    simp only [Bool.false_eq_true, if_false]
    set ranked := List.insertionSort keyLe
      ((entries.map (fun e => dist e.enc q)).zip entries) with hranked
    refine ⟨_, rfl, ?_, ?_, ?_⟩
    · rw [List.length_map]
      unfold pySliceTake
      rw [if_neg (by omega)]
      exact List.length_take_le _ _
    · have hs : List.Pairwise keyLe ranked := List.sorted_insertionSort keyLe _
      have hslice : List.Pairwise keyLe (pySliceTake topK ranked) := by
        unfold pySliceTake
        rw [if_neg (by omega)]
        exact List.Pairwise.sublist (List.take_sublist _ _) hs
      rw [List.map_map]
      exact List.Pairwise.map _ (fun a b hab => hab) hslice
    · intro r hr
      rw [List.mem_map] at hr
      obtain ⟨de, _, rfl⟩ := hr
      refine ⟨rfl, ?_⟩
      simp [mkSearchResult]

/-- Witness for `faceSearch_sorted_conf` at the worked example of the spec:
tolerance 0.55, stored distances 0.12, 0.40, 0.61. -/
theorem faceSearch_sorted_conf_witness :
    ([(⟨12/100, "p1", "f1"⟩ : FaceEntry ℚ String), ⟨40/100, "p2", "f2"⟩,
       ⟨61/100, "p3", "f3"⟩] ≠ [] ∧ [(0 : ℚ)] ≠ [] ∧ (0 : Int) ≤ 3) ∧
    (∃ rs, faceSearch (fun a _ => a) (55/100 : ℚ)
        [⟨12/100, "p1", "f1"⟩, ⟨40/100, "p2", "f2"⟩, ⟨61/100, "p3", "f3"⟩]
        [(0 : ℚ)] 3 = .ok rs ∧
      rs.length ≤ (3 : Int).toNat ∧
      List.Sorted (· ≤ ·) (rs.map (·.distance)) ∧
      ∀ r ∈ rs,
        r.confidence =
          (if r.distance ≤ (55/100 : ℚ) then max 0 (1 - r.distance / (55/100 : ℚ)) else 0) ∧
        (r.isMatch = true ↔ r.distance ≤ (55/100 : ℚ))) :=
  ⟨⟨by decide, by decide, by decide⟩,
   faceSearch_sorted_conf ℚ String (fun a _ => a) (55/100)
     [⟨12/100, "p1", "f1"⟩, ⟨40/100, "p2", "f2"⟩, ⟨61/100, "p3", "f3"⟩]
     [(0 : ℚ)] 3 (by decide) (by decide) (by decide)⟩

/-- Specification of the tail fold of
`max(arts, key=lambda a: a.get("width", 0))`: when every element has an
integral width key, the fold succeeds and returns an element whose key
dominates the accumulator and every list element. -/
theorem pyMaxWidthGo_spec (l : List JVal) :
    ∀ (best : JVal) (bw : Int),
      (∀ x ∈ l, ∃ w : Int, widthKey x = .ok (.num w)) →
      widthKey best = .ok (.num bw) →
      ∃ (m : JVal) (mw : Int),
        pyMaxWidthGo best (.num bw) l = .ok m ∧
        widthKey m = .ok (.num mw) ∧
        bw ≤ mw ∧ (m = best ∨ m ∈ l) ∧
        ∀ x ∈ l, ∀ w : Int, widthKey x = .ok (.num w) → w ≤ mw := by
  induction l with
  | nil =>
      intro best bw _ hb
      exact ⟨best, bw, rfl, hb, le_refl _, Or.inl rfl, by simp⟩
  | cons x rest ih =>
      intro best bw hall hb
      obtain ⟨w, hw⟩ := hall x (List.mem_cons_self x rest)
      have hrest : ∀ y ∈ rest, ∃ wy : Int, widthKey y = .ok (.num wy) :=
        fun y hy => hall y (List.mem_cons_of_mem x hy)
      by_cases hlt : bw < w
      · obtain ⟨m, mw, hgo, hmw, hge, hmem, hbound⟩ := ih x w hrest hw
        refine ⟨m, mw, ?_, hmw, le_trans (le_of_lt hlt) hge, ?_, ?_⟩
        · simp only [pyMaxWidthGo, hw, bind, Except.bind, pyGtJ]
          rw [if_pos (by simpa using hlt)]
          exact hgo
        · rcases hmem with h | h
          · exact Or.inr (h ▸ List.mem_cons_self x rest)
          · exact Or.inr (List.mem_cons_of_mem x h)
        · intro y hy wy hwy
          rcases List.mem_cons.mp hy with rfl | hy
          · rw [hw] at hwy
            cases hwy
            exact hge
          · exact hbound y hy wy hwy
      · obtain ⟨m, mw, hgo, hmw, hge, hmem, hbound⟩ := ih best bw hrest hb
        refine ⟨m, mw, ?_, hmw, hge, ?_, ?_⟩
        · simp only [pyMaxWidthGo, hw, bind, Except.bind, pyGtJ]
          rw [if_neg (by simpa using hlt)]
          exact hgo
        · rcases hmem with h | h
          · exact Or.inl h
          · exact Or.inr (List.mem_cons_of_mem x h)
        · intro y hy wy hwy
          rcases List.mem_cons.mp hy with rfl | hy
          · rw [hw] at hwy
            cases hwy
            exact le_trans (not_lt.mp hlt) hge
          · exact hbound y hy wy hwy

/-- C7: `_extract_vector_image` returns `""` (and never raises) when the
root URL is empty/absent or the artifacts list is empty/absent; and on an
artifacts list holding the three widths 100, 400, 800 in any order it
returns the root URL concatenated with the 800-width segment. -/
theorem extractVectorImage_spec :
    (∀ fs : List (String × JVal),
      (jGetD fs "rootUrl" (.str "")).truthy = false ∨
      (jGetD fs "artifacts" (.arr [])).truthy = false →
      extractVectorImage (.obj fs) = .ok "") ∧
    (∀ (root s1 s2 s3 : String) (arts : List JVal),
      root ≠ "" → s3 ≠ "" →
      arts.Perm [mkArtifact 100 s1, mkArtifact 400 s2, mkArtifact 800 s3] →
      extractVectorImage (.obj [("rootUrl", .str root), ("artifacts", .arr arts)]) =
        .ok (root ++ s3)) := by
  constructor
  · intro fs h
    rcases h with h | h <;> simp [extractVectorImage, h]
  · intro root s1 s2 s3 arts hroot hs3 hperm
    have hall : ∀ x ∈ arts, ∃ w : Int, widthKey x = .ok (.num w) := by
      intro x hx
      have hx3 := hperm.subset hx
      simp only [List.mem_cons, List.not_mem_nil, or_false] at hx3
      rcases hx3 with rfl | rfl | rfl <;> exact ⟨_, rfl⟩
    have hA800 : mkArtifact 800 s3 ∈ arts := hperm.mem_iff.mpr (by simp)
    cases arts with
    | nil => exact absurd hA800 (List.not_mem_nil _)
    | cons a rest =>
      obtain ⟨w, hw⟩ := hall a (List.mem_cons_self a rest)
      obtain ⟨m, mw, hgo, hmw, hge, hmem, hbound⟩ :=
        pyMaxWidthGo_spec rest a w
          (fun y hy => hall y (List.mem_cons_of_mem a hy)) hw
      have hmax : pyMaxWidth (.arr (a :: rest)) = .ok m := by
        simp only [pyMaxWidth, pyIterate, bind, Except.bind, hw]
        exact hgo
      have hbound' : ∀ x ∈ a :: rest, ∀ wx : Int, widthKey x = .ok (.num wx) → wx ≤ mw := by
        intro x hx wx hwx
        rcases List.mem_cons.mp hx with rfl | hx
        · rw [hw] at hwx
          cases hwx
          exact hge
        · exact hbound x hx wx hwx
      have h800 : (800 : Int) ≤ mw := hbound' _ hA800 800 rfl
      have hm_mem : m ∈ a :: rest := by
        rcases hmem with rfl | h
        · exact List.mem_cons_self _ _
        · exact List.mem_cons_of_mem a h
      have hm3 := hperm.subset hm_mem
      simp only [List.mem_cons, List.not_mem_nil, or_false] at hm3
      have hm_eq : m = mkArtifact 800 s3 := by
        rcases hm3 with rfl | rfl | rfl
        · rw [show widthKey (mkArtifact 100 s1) = .ok (.num 100) from rfl] at hmw
          cases hmw
          omega
        · rw [show widthKey (mkArtifact 400 s2) = .ok (.num 400) from rfl] at hmw
          cases hmw
          omega
        · rfl
      subst hm_eq
      have htr : ((JVal.str root).truthy && (JVal.arr (a :: rest)).truthy) = true := by
        simp [JVal.truthy, hroot]
      have hseg : jGetM (mkArtifact 800 s3) "fileIdentifyingUrlPathSegment" (.str "") =
          .ok (.str s3) := rfl
      have hs3t : (JVal.str s3).truthy = true := by simp [JVal.truthy, hs3]
      simp [extractVectorImage, jGetD, jLookup, List.find?, hmax, hseg, hs3t, htr,
            bind, Except.bind, pure, Except.pure, pyAddStr, JVal.truthy, hroot, hs3]

/-- Witness for `extractVectorImage_spec`: an artifact-less descriptor and a
concrete 100/400/800 artifact list. -/
theorem extractVectorImage_spec_witness :
    (((jGetD [("rootUrl", JVal.str "")] "rootUrl" (.str "")).truthy = false ∨
      (jGetD [("rootUrl", JVal.str "")] "artifacts" (.arr [])).truthy = false) ∧
      extractVectorImage (.obj [("rootUrl", .str "")]) = .ok "") ∧
    (("http://r/" : String) ≠ "" ∧ ("c" : String) ≠ "" ∧
      ([mkArtifact 100 "a", mkArtifact 400 "b", mkArtifact 800 "c"] : List JVal).Perm
        [mkArtifact 100 "a", mkArtifact 400 "b", mkArtifact 800 "c"] ∧
      extractVectorImage (.obj [("rootUrl", .str "http://r/"),
        ("artifacts", .arr [mkArtifact 100 "a", mkArtifact 400 "b", mkArtifact 800 "c"])]) =
        .ok ("http://r/" ++ "c")) :=
  ⟨⟨Or.inl (by decide), extractVectorImage_spec.1 _ (Or.inl (by decide))⟩,
   ⟨by decide, by decide, List.Perm.refl _,
    extractVectorImage_spec.2 "http://r/" "a" "b" "c" _ (by decide) (by decide)
      (List.Perm.refl _)⟩⟩

/-- Cache retention: every URN bound to a non-empty URL in `c` is still
bound to some non-empty URL in `c'`. -/
def retains (c c' : Cache) : Prop :=
  ∀ (u : JVal) (p : String), cacheFind c u = some p → p ≠ "" →
    ∃ p', cacheFind c' u = some p' ∧ p' ≠ ""

theorem retains_rfl (c : Cache) : retains c c :=
  fun _ p h hp => ⟨p, h, hp⟩

theorem retains_trans {a b c : Cache} (h1 : retains a b) (h2 : retains b c) :
    retains a c := by
  intro u p h hp
  obtain ⟨p', hf, hp'⟩ := h1 u p h hp
  exact h2 u p' hf hp'

/-- A dict write with a non-empty value retains every non-empty binding. -/
theorem cacheSetGo_retains (k : JVal) (v : String) (hv : v ≠ "") :
    ∀ c : Cache, retains c (cacheSet.cacheSetGo c k v) := by
  intro c
  induction c with
  | nil =>
      intro u p h _
      simp [cacheFind] at h
  | cons kv rest ih =>
      obtain ⟨k', v'⟩ := kv
      intro u p h hp
      by_cases hbk : jvalBeq k' k
      · by_cases hbu : jvalBeq k' u
        · exact ⟨v, by simp [cacheFind, List.find?, cacheSet.cacheSetGo, hbk, hbu], hv⟩
        · have h' : cacheFind rest u = some p := by
            simpa [cacheFind, List.find?, hbu] using h
          refine ⟨p, ?_, hp⟩
          simpa [cacheFind, List.find?, cacheSet.cacheSetGo, hbk, hbu] using h'
      · by_cases hbu : jvalBeq k' u
        · have h' : v' = p := by
            simpa [cacheFind, List.find?, hbu] using h
          refine ⟨v', ?_, h' ▸ hp⟩
          simp [cacheFind, List.find?, cacheSet.cacheSetGo, hbk, hbu]
        · have h' : cacheFind rest u = some p := by
            simpa [cacheFind, List.find?, hbu] using h
          obtain ⟨p', h1, h2⟩ := ih u p h' hp
          refine ⟨p', ?_, h2⟩
          simpa [cacheFind, List.find?, cacheSet.cacheSetGo, hbk, hbu] using h1

theorem cacheSet_retains (c : Cache) (k : JVal) (v : String) (hv : v ≠ "")
    (c' : Cache) (h : cacheSet c k v = .ok c') : retains c c' := by
  cases k with
  | arr xs => simp [cacheSet] at h
  | obj fs => simp [cacheSet] at h
  | str s =>
      simp [cacheSet] at h
      exact h ▸ cacheSetGo_retains _ v hv c
  | num n =>
      simp [cacheSet] at h
      exact h ▸ cacheSetGo_retains _ v hv c
  | bool b =>
      simp [cacheSet] at h
      exact h ▸ cacheSetGo_retains _ v hv c
  | null =>
      simp [cacheSet] at h
      exact h ▸ cacheSetGo_retains _ v hv c

/-- The pre-scan writes only non-empty photo URLs, so it retains every
non-empty binding (even when it aborts with an exception mid-way). -/
theorem prescanLoop_retains (es : List JVal) :
    ∀ c : Cache, retains c (prescanLoop es c).1 := by
  induction es with
  | nil => intro c; exact retains_rfl c
  | cons e rest ih =>
      intro c
      cases e with
      | obj efs =>
          by_cases hu : (jGetD efs "entityUrn" (.str "")).truthy
          · cases hp : erPhotoIncluded efs with
            | error ex => simp [prescanLoop, hu, hp]; exact retains_rfl c
            | ok photo =>
                by_cases hph : photo = ""
                · simpa [prescanLoop, hu, hp, hph] using ih c
                · cases hs : cacheSet c (jGetD efs "entityUrn" (.str "")) photo with
                  | error ex => simp [prescanLoop, hu, hp, hph, hs]; exact retains_rfl c
                  | ok c' =>
                      have h1 := cacheSet_retains c _ photo hph c' hs
                      have h2 := ih c'
                      simpa [prescanLoop, hu, hp, hph, hs] using retains_trans h1 h2
          · simpa [prescanLoop, hu] using ih c
      | str s => simpa [prescanLoop] using ih c
      | num n => simpa [prescanLoop] using ih c
      | bool b => simpa [prescanLoop] using ih c
      | null => simpa [prescanLoop] using ih c
      | arr xs => simpa [prescanLoop] using ih c

/-- One parser call retains every non-empty cache binding. -/
theorem parse_retains (inp : JsonInput) (c : Cache) :
    retains c (parseVoyagerResponse inp c).1 := by
  cases inp with
  | malformed => exact retains_rfl c
  | wellFormed data =>
      cases hio : includedOf data with
      | none =>
          simp only [parseVoyagerResponse, hio]
          cases hw : walkEr c 16 data ⟨[], []⟩ with
          | error e => simpa [hw] using retains_rfl c
          | ok st1 =>
              by_cases hres : st1.results.isEmpty
              · cases hn : walkNav c 13 data st1 with
                | error e => simpa [hw, hres, hn] using retains_rfl c
                | ok st4 => simpa [hw, hres, hn] using retains_rfl c
              · simpa [hw, hres] using retains_rfl c
      | some xs =>
          simp only [parseVoyagerResponse, hio]
          rcases hpre : prescanLoop xs c with ⟨c1, r⟩
          have hr : retains c c1 := by
            have := prescanLoop_retains xs c
            rw [hpre] at this
            exact this
          cases r with
          | error e => simpa [hpre] using hr
          | ok u =>
              cases u
              cases hw : walkEr c1 16 data ⟨[], []⟩ with
              | error e => simpa [hpre, hw] using hr
              | ok st1 =>
                  cases he : ervmIncludedLoop c1 xs st1 with
                  | error e => simpa [hpre, hw, he] using hr
                  | ok st2 =>
                      cases hs2 : strat2Loop c1 xs st2 with
                      | error e => simpa [hpre, hw, he, hs2] using hr
                      | ok st3 =>
                          by_cases hres : st3.results.isEmpty
                          · cases hn : walkNav c1 13 data st3 with
                            | error e => simpa [hpre, hw, he, hs2, hres, hn] using hr
                            | ok st4 => simpa [hpre, hw, he, hs2, hres, hn] using hr
                          · simpa [hpre, hw, he, hs2, hres] using hr

/-- C6: across every sequence of parser calls sharing one `urn_photos`
cache, a URN once bound to a non-empty photo URL is still bound to a
non-empty URL afterwards — cache writes happen only with non-empty photo
values. -/
theorem urnPhotoCache_monotone (inps : List JsonInput) (c : Cache) (u : JVal)
    (p : String) (hfind : cacheFind c u = some p) (hp : p ≠ "") :
    ∃ p', cacheFind (parseSeqCache inps c) u = some p' ∧ p' ≠ "" := by
  induction inps generalizing c p with
  | nil => exact ⟨p, hfind, hp⟩
  | cons i rest ih =>
      obtain ⟨p', h1, h2⟩ := parse_retains i c u p hfind hp
      exact ih (parseVoyagerResponse i c).1 p' h1 h2

/-- Witness for `urnPhotoCache_monotone`: a cache binding `urn:a` survives a
parser call that itself raises mid-scan and a malformed response. -/
theorem urnPhotoCache_monotone_witness :
    (cacheFind [(JVal.str "urn:a", "http://photo")] (.str "urn:a") = some "http://photo" ∧
      ("http://photo" : String) ≠ "") ∧
    ∃ p', cacheFind (parseSeqCache [.wellFormed cexArtifactsPayload, .malformed]
        [(JVal.str "urn:a", "http://photo")]) (.str "urn:a") = some p' ∧ p' ≠ "" :=
  ⟨⟨by decide, by decide⟩,
   urnPhotoCache_monotone [.wellFormed cexArtifactsPayload, .malformed]
     [(JVal.str "urn:a", "http://photo")] (.str "urn:a") "http://photo"
     (by decide) (by decide)⟩

theorem p2LoadStep_profiles (norm : String → String) (st : P2State) (p : Profile) :
    (p2LoadStep norm st p).allProfiles = st.allProfiles := by
  unfold p2LoadStep
  dsimp only
  split <;> split <;> rfl

/-- Loading the progress file keeps the records as-is (it only builds the
seen-sets). -/
theorem p2Load_profiles (norm : String → String) (existing : List Profile) :
    (p2Load norm existing).allProfiles = existing := by
  unfold p2Load
  suffices h : ∀ (l : List Profile) (st : P2State),
      (l.foldl (p2LoadStep norm) st).allProfiles = st.allProfiles by
    exact h existing ⟨existing, [], []⟩
  intro l
  induction l with
  | nil => intro st; rfl
  | cons p rest ih =>
      intro st
      rw [List.foldl_cons, ih, p2LoadStep_profiles]

/-- The batch fold only ever appends records of the batch. -/
theorem p2AddBatch_append (norm : String → String) (batch : List Profile) :
    ∀ st : P2State, ∃ newRecs,
      (p2AddBatch norm st batch).allProfiles = st.allProfiles ++ newRecs ∧
      ∀ p ∈ newRecs, p ∈ batch := by
  induction batch with
  | nil => exact fun st => ⟨[], by simp [p2AddBatch], by simp⟩
  | cons p rest ih =>
      intro st
      obtain ⟨newR, h1, h2⟩ := ih (p2AddStep norm st p)
      have hstep : (p2AddStep norm st p).allProfiles = st.allProfiles ∨
          (p2AddStep norm st p).allProfiles = st.allProfiles ++ [p] := by
        unfold p2AddStep
        dsimp only
        split
        · exact Or.inl rfl
        · split
          · exact Or.inl rfl
          · exact Or.inr rfl
      have hfold : (p2AddBatch norm st (p :: rest)).allProfiles =
          (p2AddStep norm st p).allProfiles ++ newR := by
        unfold p2AddBatch at h1 ⊢
        rw [List.foldl_cons]
        exact h1
      rcases hstep with h | h
      · exact ⟨newR, by rw [hfold, h],
          fun q hq => List.mem_cons_of_mem p (h2 q hq)⟩
      · refine ⟨p :: newR, ?_, ?_⟩
        · rw [hfold, h]
          simp
        · intro q hq
          rcases List.mem_cons.mp hq with rfl | hq
          · exact List.mem_cons_self _ _
          · exact List.mem_cons_of_mem p (h2 q hq)

/-- C9: restarting over segments `[A, B]` with `A` already in the
completed-segments marker skips `A` entirely — the run consults only the
batch scraped for `B`, appends only `B` to the marker, and the final record
list is the pre-existing records followed by exactly the records of `B`
that survive the URL/name dedup against them. -/
theorem p2_resume (norm : String → String) (existing : List Profile)
    (A B : String) (batches : String → List Profile) (hAB : A ≠ B) :
    (p2Run norm [A] [A, B] batches (p2Load norm existing)).2 = [B] ∧
    (p2Run norm [A] [A, B] batches (p2Load norm existing)).1 =
      p2AddBatch norm (p2Load norm existing) (batches B) ∧
    ∃ newRecs,
      (p2Run norm [A] [A, B] batches (p2Load norm existing)).1.allProfiles =
        existing ++ newRecs ∧ ∀ p ∈ newRecs, p ∈ batches B := by
  have hBA : ¬ (B = A) := fun h => hAB h.symm
  have h1 : ([A].contains A) = true := by simp
  have h2 : ([A].contains B) = false := by simp [hBA]
  have hrun : p2Run norm [A] [A, B] batches (p2Load norm existing) =
      (p2AddBatch norm (p2Load norm existing) (batches B), [B]) := by
    unfold p2Run
    simp [h1, h2, hBA]
  refine ⟨by rw [hrun], by rw [hrun], ?_⟩
  obtain ⟨newR, h1, h2⟩ := p2AddBatch_append norm (batches B) (p2Load norm existing)
  refine ⟨newR, ?_, h2⟩
  rw [hrun]
  simpa [p2Load_profiles] using h1

/-- Witness for `p2_resume` with segments 2021 (done) and 2022. -/
theorem p2_resume_witness :
    ("2021" : String) ≠ "2022" ∧
    ((p2Run (fun s => s) ["2021"] ["2021", "2022"] (fun _ => [])
        (p2Load (fun s => s) [])).2 = ["2022"] ∧
     (p2Run (fun s => s) ["2021"] ["2021", "2022"] (fun _ => [])
        (p2Load (fun s => s) [])).1 =
       p2AddBatch (fun s => s) (p2Load (fun s => s) []) ((fun _ => ([] : List Profile)) "2022") ∧
     ∃ newRecs,
       (p2Run (fun s => s) ["2021"] ["2021", "2022"] (fun _ => [])
          (p2Load (fun s => s) [])).1.allProfiles = [] ++ newRecs ∧
       ∀ p ∈ newRecs, p ∈ (fun _ => ([] : List Profile)) "2022") :=
  ⟨by decide,
   p2_resume (fun s => s) [] "2021" "2022" (fun _ => []) (by decide)⟩

/-- The stale-round `break` stops all further consumption of round
observations. -/
theorem runRounds_halted (maxP maxStale : Nat) (st : CrawlState)
    (l : List RoundInput) (h : st.halted = true) :
    runRounds maxP maxStale st l = st := by
  cases l with
  | nil => rfl
  | cons r rest => simp [runRounds, h]

/-- The profiles and seen-set a round produces, independently of the
stale/halt bookkeeping. -/
theorem crawlRound_profiles_seen (maxP maxStale : Nat) (st : CrawlState)
    (r : RoundInput) :
    (crawlRound maxP maxStale st r).profiles =
      st.profiles ++ ((roundRaw st r).take (maxP - st.profiles.length)).map dlPhoto ∧
    (crawlRound maxP maxStale st r).seen =
      (roundRaw st r).foldl (fun s item => seenAdd s item.href) st.seen := by
  unfold crawlRound
  dsimp only
  split
  · split <;> exact ⟨rfl, rfl⟩
  · exact ⟨rfl, rfl⟩

/-- C5: the crawl loop terminates by the stale-round rule.  (1) A round
with an empty effective source and no click leaves the collected profiles
and seen-set unchanged, increments the stale counter, and halts exactly
when the counter reaches the threshold; (2) any round that collects a
profile or clicked a control resets the counter to zero; (3) once
`maxStale` consecutive such stale rounds occur, the loop stops and the
result set stops growing at exactly that point, whatever rounds follow;
(4) the threshold is the constructor argument clamped to at least 1, with
default 3. -/
theorem stale_round_termination :
    (∀ (maxP maxStale : Nat) (st : CrawlState) (r : RoundInput),
      roundRaw st r = [] → r.clicked = false →
      (crawlRound maxP maxStale st r).profiles = st.profiles ∧
      (crawlRound maxP maxStale st r).seen = st.seen ∧
      (crawlRound maxP maxStale st r).stale = st.stale + 1 ∧
      ((crawlRound maxP maxStale st r).halted = true ↔ maxStale ≤ st.stale + 1)) ∧
    (∀ (maxP maxStale : Nat) (st : CrawlState) (r : RoundInput),
      (r.clicked = true ∨ (roundRaw st r ≠ [] ∧ st.profiles.length < maxP)) →
      (crawlRound maxP maxStale st r).stale = 0) ∧
    (∀ (maxP maxStale : Nat) (st : CrawlState) (rounds extra : List RoundInput),
      st.halted = false → st.profiles.length < maxP →
      (∀ r ∈ rounds, roundRaw st r = [] ∧ r.clicked = false) →
      maxStale ≤ st.stale + rounds.length → rounds ≠ [] →
      (runRounds maxP maxStale st (rounds ++ extra)).profiles = st.profiles) ∧
    (clampMaxStale defaultMaxStaleRounds = 3 ∧ ∀ n : Int, 1 ≤ clampMaxStale n) := by
  have hstale : ∀ (maxP maxStale : Nat) (st : CrawlState) (r : RoundInput),
      roundRaw st r = [] → r.clicked = false →
      (crawlRound maxP maxStale st r).profiles = st.profiles ∧
      (crawlRound maxP maxStale st r).seen = st.seen ∧
      (crawlRound maxP maxStale st r).stale = st.stale + 1 ∧
      ((crawlRound maxP maxStale st r).halted = true ↔ maxStale ≤ st.stale + 1) := by
    intro maxP maxStale st r hraw hclick
    unfold crawlRound
    rw [hraw, hclick]
    by_cases hth : maxStale ≤ st.stale + 1
    · simp [hth]
    · simp [hth]
  refine ⟨hstale, ?_, ?_, by decide, fun n => ?_⟩
  · intro maxP maxStale st r h
    unfold crawlRound
    dsimp only
    rcases h with h | ⟨hraw, hlen⟩
    · rw [h]
      simp
    · have hne2 : ((roundRaw st r).take (maxP - st.profiles.length)).map dlPhoto ≠ [] := by
        simp only [ne_eq, List.map_eq_nil_iff, List.take_eq_nil_iff]
        push_neg
        exact ⟨by omega, hraw⟩
      rw [if_neg (by
        intro hcond
        simp only [Bool.and_eq_true, List.isEmpty_iff] at hcond
        exact hne2 hcond.1)]
  · intro maxP maxStale st rounds extra hhalt hlen hall hth hne
    induction rounds generalizing st with
    | nil => exact absurd rfl hne
    | cons r rest ih =>
        obtain ⟨hraw, hclick⟩ := hall r (List.mem_cons_self r rest)
        obtain ⟨hp, hs, hst, hh⟩ := hstale maxP maxStale st r hraw hclick
        rw [List.cons_append]
        rw [show runRounds maxP maxStale st (r :: (rest ++ extra)) =
          runRounds maxP maxStale (crawlRound maxP maxStale st r) (rest ++ extra) by
            simp [runRounds, hhalt, Nat.not_le.mpr hlen]]
        by_cases hdone : maxStale ≤ st.stale + 1
        · rw [runRounds_halted _ _ _ _ (hh.mpr hdone)]
          exact hp
        · cases rest with
          | nil => simp at hth; omega
          | cons r2 rest2 =>
              have hall2 : ∀ q ∈ r2 :: rest2, roundRaw (crawlRound maxP maxStale st r) q = [] ∧
                  q.clicked = false := by
                intro q hq
                obtain ⟨hq1, hq2⟩ := hall q (List.mem_cons_of_mem r hq)
                refine ⟨?_, hq2⟩
                unfold roundRaw at hq1 ⊢
                rw [hs]
                exact hq1
              have := ih (crawlRound maxP maxStale st r)
                (by rw [show (crawlRound maxP maxStale st r).halted = false by
                      cases hhv : (crawlRound maxP maxStale st r).halted
                      · rfl
                      · exact absurd (hh.mp hhv) hdone])
                (by rw [hp]; exact hlen) hall2
                (by rw [hst]; simp at hth ⊢; omega)
                (by simp)
              rw [this, hp]
  · unfold clampMaxStale
    omega

/-- Witness for `stale_round_termination`: two empty rounds against a fresh
state with threshold 2 freeze the result set, and a later productive round
is never consumed. -/
theorem stale_round_termination_witness :
    ((initCrawlState []).halted = false ∧
     (initCrawlState []).profiles.length < 5 ∧
     (∀ r ∈ [(⟨[], [], false⟩ : RoundInput), ⟨[], [], false⟩],
        roundRaw (initCrawlState []) r = [] ∧ r.clicked = false) ∧
     2 ≤ (initCrawlState []).stale + ([(⟨[], [], false⟩ : RoundInput), ⟨[], [], false⟩]).length ∧
     ([(⟨[], [], false⟩ : RoundInput), ⟨[], [], false⟩]) ≠ []) ∧
    (runRounds 5 2 (initCrawlState [])
       ([(⟨[], [], false⟩ : RoundInput), ⟨[], [], false⟩] ++ [dupRound])).profiles =
      (initCrawlState []).profiles :=
  ⟨⟨rfl, by decide, by decide, by decide, List.cons_ne_nil _ _⟩,
   stale_round_termination.2.2.1 5 2 (initCrawlState [])
     [⟨[], [], false⟩, ⟨[], [], false⟩] [dupRound] rfl (by decide) (by decide)
     (by decide) (List.cons_ne_nil _ _)⟩

/-- C1 counterexample: one crawl round whose intercepted traffic holds two
API responses that both yield the canonical URL of `alice` collects two
`Profile` records with the same URL — the per-round filter checks
`seen_urls` only against earlier rounds, not within the buffer slice of
the round itself. -/
theorem crawl_duplicate_in_round :
    urlsOf (runRounds 10 3 (initCrawlState []) [dupRound]).profiles =
      ["https://www.linkedin.com/in/alice", "https://www.linkedin.com/in/alice"] ∧
    ¬ (urlsOf (runRounds 10 3 (initCrawlState []) [dupRound]).profiles).Nodup := by
  constructor
  · rfl
  · decide

/-- Photo enrichment does not change any URL. -/
theorem mergePhotos_hrefs (dom : List (String × CrawlTuple)) (l : List CrawlTuple) :
    (mergePhotos dom l).map (·.href) = l.map (·.href) := by
  unfold mergePhotos
  rw [List.map_map]
  apply List.map_congr_left
  intro t _
  dsimp only [Function.comp]
  split
  · split
    · split <;> rfl
    · rfl
  · rfl

/-- The URLs of the effective source of a round are pairwise distinct when
its buffer slice and DOM list are. -/
theorem roundRaw_nodup (st : CrawlState) (r : RoundInput)
    (h1 : (r.apiParsed.flatten.map (·.href)).Nodup)
    (h2 : (r.domRaw.map (·.href)).Nodup) :
    ((roundRaw st r).map (·.href)).Nodup := by
  unfold roundRaw
  dsimp only
  split
  · rw [mergePhotos_hrefs]
    exact ((List.filter_sublist _).map _).nodup h1
  · exact ((List.filter_sublist _).map _).nodup h2

/-- Every URL of the effective source of a round is new to `seen_urls`. -/
theorem roundRaw_not_seen (st : CrawlState) (r : RoundInput) :
    ∀ u ∈ (roundRaw st r).map (·.href), u ∉ st.seen := by
  unfold roundRaw
  dsimp only
  split
  · rw [mergePhotos_hrefs]
    intro u hu
    rw [List.mem_map] at hu
    obtain ⟨t, ht, rfl⟩ := hu
    have := (List.mem_filter.mp ht).2
    simp at this
    exact this
  · intro u hu
    rw [List.mem_map] at hu
    obtain ⟨t, ht, rfl⟩ := hu
    have := (List.mem_filter.mp ht).2
    simp at this
    exact this

/-- The post-round `seen_urls` contains the old set and every source URL. -/
theorem seen_foldl_mem (l : List CrawlTuple) :
    ∀ (s : List String) (u : String),
      (u ∈ s ∨ u ∈ l.map (·.href)) →
      u ∈ l.foldl (fun s t => seenAdd s t.href) s := by
  induction l with
  | nil =>
      intro s u h
      rcases h with h | h
      · exact h
      · simp at h
  | cons t rest ih =>
      intro s u h
      rw [List.foldl_cons]
      apply ih
      rcases h with h | h
      · left
        unfold seenAdd
        split
        · exact h
        · exact List.mem_append_left _ h
      · rw [List.map_cons, List.mem_cons] at h
        rcases h with rfl | h
        · left
          unfold seenAdd
          split
          · next hc => simpa using hc
          · exact List.mem_append_right _ (List.mem_singleton.mpr rfl)
        · right
          exact h

/-- One crawl round preserves the no-duplicate invariant (collected URLs
pairwise distinct and all recorded in `seen_urls`) provided the buffer
slice and DOM list of the round carry no internal duplicate. -/
theorem crawlRound_nodup_inv (maxP maxStale : Nat) (st : CrawlState) (r : RoundInput)
    (h1 : (r.apiParsed.flatten.map (·.href)).Nodup)
    (h2 : (r.domRaw.map (·.href)).Nodup)
    (hnd : (urlsOf st.profiles).Nodup)
    (hsub : ∀ u ∈ urlsOf st.profiles, u ∈ st.seen) :
    (urlsOf (crawlRound maxP maxStale st r).profiles).Nodup ∧
    ∀ u ∈ urlsOf (crawlRound maxP maxStale st r).profiles,
      u ∈ (crawlRound maxP maxStale st r).seen := by
  obtain ⟨hp, hs⟩ := crawlRound_profiles_seen maxP maxStale st r
  have hbatch_sub : List.Sublist
      (((roundRaw st r).take (maxP - st.profiles.length)).map (·.href))
      ((roundRaw st r).map (·.href)) := (List.take_sublist _ _).map _
  have hdone : urlsOf (((roundRaw st r).take (maxP - st.profiles.length)).map dlPhoto) =
      ((roundRaw st r).take (maxP - st.profiles.length)).map (·.href) := by
    unfold urlsOf
    rw [List.map_map]
    rfl
  have hbnd : (((roundRaw st r).take (maxP - st.profiles.length)).map (·.href)).Nodup :=
    hbatch_sub.nodup (roundRaw_nodup st r h1 h2)
  have hbnew : ∀ u ∈ ((roundRaw st r).take (maxP - st.profiles.length)).map (·.href),
      u ∉ st.seen := fun u hu => roundRaw_not_seen st r u (hbatch_sub.subset hu)
  constructor
  · rw [hp]
    unfold urlsOf
    rw [List.map_append]
    rw [List.nodup_append]
    refine ⟨hnd, ?_, ?_⟩
    · rw [show List.map (fun p => p.url) (((roundRaw st r).take (maxP - st.profiles.length)).map dlPhoto) =
        ((roundRaw st r).take (maxP - st.profiles.length)).map (·.href) from hdone]
      exact hbnd
    · intro u hu hu2
      rw [show List.map (fun p => p.url) (((roundRaw st r).take (maxP - st.profiles.length)).map dlPhoto) =
        ((roundRaw st r).take (maxP - st.profiles.length)).map (·.href) from hdone] at hu2
      exact hbnew u hu2 (hsub u hu)
  · intro u hu
    rw [hp] at hu
    rw [hs]
    unfold urlsOf at hu
    rw [List.map_append, List.mem_append] at hu
    apply seen_foldl_mem
    rcases hu with hu | hu
    · exact Or.inl (hsub u hu)
    · right
      rw [show List.map (fun p => p.url) (((roundRaw st r).take (maxP - st.profiles.length)).map dlPhoto) =
        ((roundRaw st r).take (maxP - st.profiles.length)).map (·.href) from hdone] at hu
      exact hbatch_sub.subset hu

/-- The crawl loop preserves the no-duplicate invariant. -/
theorem runRounds_nodup_inv (maxP maxStale : Nat) (rounds : List RoundInput) :
    ∀ st : CrawlState,
      (∀ r ∈ rounds, (r.apiParsed.flatten.map (·.href)).Nodup ∧
        (r.domRaw.map (·.href)).Nodup) →
      (urlsOf st.profiles).Nodup →
      (∀ u ∈ urlsOf st.profiles, u ∈ st.seen) →
      (urlsOf (runRounds maxP maxStale st rounds).profiles).Nodup := by
  induction rounds with
  | nil => intro st _ hnd _; exact hnd
  | cons r rest ih =>
      intro st hall hnd hsub
      obtain ⟨h1, h2⟩ := hall r (List.mem_cons_self r rest)
      unfold runRounds
      split
      · exact hnd
      · split
        · exact hnd
        · obtain ⟨hnd', hsub'⟩ := crawlRound_nodup_inv maxP maxStale st r h1 h2 hnd hsub
          exact ih (crawlRound maxP maxStale st r)
            (fun q hq => hall q (List.mem_cons_of_mem r hq)) hnd' hsub'

/-- The URL-dedup step of `scrape_all_alumni.main` preserves the invariant:
collected URLs pairwise distinct and all in the seen-set. -/
theorem dedupAppend_inv (acc : List Profile × List String) (p : Profile)
    (hnd : (acc.1.map (·.url)).Nodup)
    (hsub : ∀ u ∈ acc.1.map (·.url), u ∈ acc.2) :
    ((dedupAppend acc p).1.map (·.url)).Nodup ∧
    ∀ u ∈ (dedupAppend acc p).1.map (·.url), u ∈ (dedupAppend acc p).2 := by
  unfold dedupAppend
  by_cases hc : acc.2.contains p.url
  · rw [if_pos hc]
    exact ⟨hnd, hsub⟩
  · rw [if_neg hc]
    have hnew : p.url ∉ acc.2 := by simpa using hc
    constructor
    · rw [List.map_append, List.nodup_append]
      refine ⟨hnd, by simp, ?_⟩
      intro u hu hu2
      simp at hu2
      subst hu2
      exact hnew (hsub _ hu)
    · intro u hu
      rw [List.map_append, List.mem_append] at hu
      rcases hu with hu | hu
      · exact List.mem_append_left _ (hsub u hu)
      · simp at hu
        subst hu
        exact List.mem_append_right _ (by simp)

/-- Folding any record list through the URL dedup preserves the invariant. -/
theorem foldl_dedup_inv (l : List Profile) :
    ∀ acc : List Profile × List String,
      (acc.1.map (·.url)).Nodup →
      (∀ u ∈ acc.1.map (·.url), u ∈ acc.2) →
      ((l.foldl dedupAppend acc).1.map (·.url)).Nodup ∧
      ∀ u ∈ (l.foldl dedupAppend acc).1.map (·.url), u ∈ (l.foldl dedupAppend acc).2 := by
  induction l with
  | nil => intro acc hnd hsub; exact ⟨hnd, hsub⟩
  | cons p rest ih =>
      intro acc hnd hsub
      rw [List.foldl_cons]
      obtain ⟨hnd', hsub'⟩ := dedupAppend_inv acc p hnd hsub
      exact ih (dedupAppend acc p) hnd' hsub'

/-- C1 amended: the final list persisted by the segmented controller
contains at most one record per canonical URL, whatever the pre-existing
records and per-segment batches are; and within one crawl run the collected
URLs are pairwise distinct provided no single round buffer slice
(or DOM list) repeats a URL — the only duplication the code admits is a URL
arriving twice within one round, as in the counterexample. -/
theorem collected_urls_nodup :
    (∀ (existing : List Profile) (batches : List (List Profile)),
      ((scrapeAllRun existing batches).1.map (·.url)).Nodup) ∧
    (∀ (maxP maxStale : Nat) (skip : List String) (rounds : List RoundInput),
      (∀ r ∈ rounds, (r.apiParsed.flatten.map (·.href)).Nodup ∧
        (r.domRaw.map (·.href)).Nodup) →
      (urlsOf (runRounds maxP maxStale (initCrawlState skip) rounds).profiles).Nodup) := by
  constructor
  · intro existing batches
    unfold scrapeAllRun
    have hinit := foldl_dedup_inv existing ([], []) (by simp) (by simp)
    have hmain : ∀ (bs : List (List Profile)) (acc : List Profile × List String),
        (acc.1.map (·.url)).Nodup →
        (∀ u ∈ acc.1.map (·.url), u ∈ acc.2) →
        ((bs.foldl (fun acc batch => batch.foldl dedupAppend acc) acc).1.map (·.url)).Nodup := by
      intro bs
      induction bs with
      | nil => intro acc hnd _; exact hnd
      | cons b rest ih =>
          intro acc hnd hsub
          rw [List.foldl_cons]
          obtain ⟨hnd', hsub'⟩ := foldl_dedup_inv b acc hnd hsub
          exact ih (b.foldl dedupAppend acc) hnd' hsub'
    exact hmain batches _ hinit.1 hinit.2
  · intro maxP maxStale skip rounds hall
    exact runRounds_nodup_inv maxP maxStale rounds (initCrawlState skip) hall
      (by simp [urlsOf, initCrawlState]) (by simp [urlsOf, initCrawlState])

/-- Witness for `collected_urls_nodup`: a two-round crawl with internally
duplicate-free rounds. -/
theorem collected_urls_nodup_witness :
    (∀ r ∈ [(⟨[[aliceTuple]], [], false⟩ : RoundInput)],
      (r.apiParsed.flatten.map (·.href)).Nodup ∧ (r.domRaw.map (·.href)).Nodup) ∧
    (urlsOf (runRounds 10 3 (initCrawlState [])
      [(⟨[[aliceTuple]], [], false⟩ : RoundInput)]).profiles).Nodup :=
  ⟨by decide,
   collected_urls_nodup.2 10 3 [] [⟨[[aliceTuple]], [], false⟩] (by decide)⟩

/-- On a payload with no strategy-1 trigger, the `walk_er` pass leaves the
parser state untouched. -/
theorem walkEr_noop (cache : Cache) :
    ∀ b : Nat, ∀ (node : JVal) (st : PSt),
      noStrat12F b node = true → walkEr cache b node st = .ok st := by
  intro b
  induction b with
  | zero => intro node st _; rfl
  | succ b ih =>
      have hfold : ∀ (xs : List JVal) (st : PSt), (∀ x ∈ xs, noStrat12F b x = true) →
          xs.foldlM (fun s x => walkEr cache b x s) st = .ok st := by
        intro xs
        induction xs with
        | nil => intro st _; rfl
        | cons x rest ihx =>
            intro st hall
            rw [List.foldlM_cons]
            rw [ih x st (hall x (List.mem_cons_self x rest))]
            simpa [bind, Except.bind] using
              ihx st (fun y hy => hall y (List.mem_cons_of_mem x hy))
      intro node st hp
      cases node with
      | arr xs =>
          have hall : ∀ x ∈ xs, noStrat12F b x = true := by
            simpa [noStrat12F, List.all_eq_true] using hp
          simpa [walkEr] using hfold xs st hall
      | obj fs =>
          simp only [noStrat12F, Bool.and_eq_true, List.all_eq_true] at hp
          obtain ⟨ht, hvals⟩ := hp
          unfold noTrigObj at ht
          rw [Bool.and_eq_true] at ht
          obtain ⟨hk, hty⟩ := ht
          have hkey : jHasKey fs "entityResult" = false := by simpa using hk
          have hpy : pyInStr "EntityResultViewModel" (jGetD fs "$type" (.str "")) =
              .ok false := by
            rcases hl : jLookup fs "$type" with _ | v
            · simp [jGetD, hl, pyInStr]
              decide
            · rw [hl] at hty
              cases v with
              | str s =>
                  simp only [jGetD, hl, Option.getD_some, pyInStr]
                  simpa using hty
              | num n => exact absurd hty (by simp)
              | bool bb => exact absurd hty (by simp)
              | null => exact absurd hty (by simp)
              | arr ys => exact absurd hty (by simp)
              | obj gs => exact absurd hty (by simp)
          simp only [walkEr, hpy, bind, Except.bind, hkey]
          simp only [Bool.false_eq_true, if_false]
          exact hfold (fs.map (·.2)) st (fun x hx => hvals x hx)
      | str s => rfl
      | num n => rfl
      | bool bb => rfl
      | null => rfl

/-- A payload with no top-level `included` list skips the pre-scan, the
`EntityResultViewModel` pass and strategy 2. -/
theorem includedOf_none_of_notList (data : JVal) (h : includedNotList data = true) :
    includedOf data = none := by
  unfold includedNotList at h
  unfold includedOf
  cases data with
  | obj fs =>
      dsimp only at h ⊢
      rcases hl : jLookup fs "included" with _ | v
      · rfl
      · cases v <;> simp_all
  | str s => rfl
  | num n => rfl
  | bool bb => rfl
  | null => rfl
  | arr ys => rfl

/-- C2 amended: strategy 2 is not suppressed by a non-empty strategy 1 (see
the counterexample); the fallback guard protects only strategy 3, and on a
payload shaped only for strategy 3 (no `entityResult` key, no
`EntityResultViewModel` type tag, no `included` list) strategies 1–2
contribute nothing and the parser output is exactly the flat
navigation-URL walk with its direct field reads. -/
theorem strategy3_only_payload (data : JVal) (cache : Cache)
    (h1 : noStrat12F 16 data = true) (h2 : includedNotList data = true) :
    parseVoyagerResponse (.wellFormed data) cache =
      (cache, match walkNav cache 13 data ⟨[], []⟩ with
              | .ok st => .ok st.results
              | .error e => .error e) := by
  have hio : includedOf data = none := includedOf_none_of_notList data h2
  simp only [parseVoyagerResponse, hio]
  rw [walkEr_noop cache 16 data ⟨[], []⟩ h1]
  cases hn : walkNav cache 13 data ⟨[], []⟩ with
  | error e => simp [hn]
  | ok st4 => simp [hn]

/-- C2 counterexample: on `cexStrat2Payload` strategy 1 yields the `alice`
tuple, yet the returned list also contains the `bob` tuple contributed by
strategy 2 — the parser does not stop after an earlier non-empty
strategy. -/
theorem strat2_runs_after_strat1 :
    parseVoyagerResponse (.wellFormed cexStrat2Payload) [] =
      ([], .ok [⟨"https://www.linkedin.com/in/alice", .str "Alice A", .str "Eng", ""⟩,
                ⟨"https://www.linkedin.com/in/bob", .str "Bob B", .str "Dev", ""⟩]) := rfl

/-- Witness for `strategy3_only_payload` at the flat navigation-URL
payload, whose output is the single direct-field-read tuple for `carl`. -/
theorem strategy3_only_payload_witness :
    (noStrat12F 16 cexFlatNavPayload = true ∧
      includedNotList cexFlatNavPayload = true) ∧
    parseVoyagerResponse (.wellFormed cexFlatNavPayload) [] =
      ([], match walkNav [] 13 cexFlatNavPayload ⟨[], []⟩ with
           | .ok st => .ok st.results
           | .error e => .error e) ∧
    parseVoyagerResponse (.wellFormed cexFlatNavPayload) [] =
      ([], .ok [⟨"https://www.linkedin.com/in/carl", .str "Carl", .str "", ""⟩]) :=
  ⟨⟨by decide, by decide⟩,
   strategy3_only_payload cexFlatNavPayload [] (by decide) (by decide), rfl⟩
